import Mathlib

/-!
# Verification of the PySpring IoC container

A shallow embedding of the PySpring dependency-injection core
(`py_spring/core/application/context/application_context.py`,
`py_spring/core/entities/bean_collection.py`,
`framework/core/entities/properties/properties_loader.py`,
`framework/core/entities/component.py`,
`py_spring/core/application/application.py`) together with theorems about
registration, properties loading, bean resolution, dependency injection and
the component lifecycle.

Python dictionaries are modelled as insertion-ordered association lists
(`Dict`), where assignment to an existing key replaces the value in place
(preserving the key's position), exactly as CPython dicts behave.
Python object identity is modelled with explicit allocation identifiers:
every object construction draws a fresh `allocId` from a counter threaded
through the container state.  Exceptions are modelled as explicit error
values; a phase that mutates state before raising returns the partially
mutated state alongside the error, as the real interpreter would leave it.
-/

namespace PySpring

/-- Association list with CPython-dict semantics (insertion-ordered). -/
abbrev Dict (α β : Type) := List (α × β)

/-- `d[k] = v` on a CPython dict: replaces in place if `k` is present
(keeping its position), otherwise appends at the end. -/
def dictInsert {α β : Type} [DecidableEq α] (k : α) (v : β) : Dict α β → Dict α β
  | [] => [(k, v)]
  | (k0, v0) :: rest =>
    if k0 = k then (k, v) :: rest else (k0, v0) :: dictInsert k v rest

/-- `d.get(k)`: first (and, for dicts built by `dictInsert`, only) binding. -/
def dictGet {α β : Type} [DecidableEq α] : Dict α β → α → Option β
  | [], _ => none
  | (k0, v) :: rest, k => if k0 = k then some v else dictGet rest k

/-- `ComponentScope` from `py_spring/core/entities/component.py`. -/
inductive ComponentScope
  | Singleton
  | Prototype
deriving DecidableEq, Repr

/-- `ComponentLifeCycle` from `py_spring/core/entities/component.py`. -/
inductive ComponentLifeCycle
  | Init
  | Destruction
deriving DecidableEq, Repr

/-- Pydantic field types used by `Properties` schemas (only the shapes the
claims exercise: `str` and `int` fields). -/
inductive PFieldType
  | string
  | integer
deriving DecidableEq, Repr

/-- A leaf value in a parsed properties document. -/
inductive Lit
  | str (s : String)
  | int (n : Int)
deriving DecidableEq, Repr

/-- The value under one top-level key of the parsed properties document
(a JSON/YAML object, i.e. what `model_validate` receives). -/
abbrev RawObj := Dict String Lit

/-- A Python class as the container inspects it: its object identity (`id`),
its `__name__`, whether it is a subclass of `Component` (resp. `Properties`),
its `Config.scope` (meaningful for `Component` subclasses), its `__key__`
(meaningful for `Properties` subclasses, `""` when unset, in which case
`get_key` raises), and its declared pydantic fields (meaningful for
`Properties` subclasses). -/
structure AnnClass where
  id : Nat
  name : String
  isComponentSub : Bool
  isPropertiesSub : Bool
  scope : ComponentScope
  propKey : String
  fields : Dict String PFieldType
deriving DecidableEq, Repr

/-- A declared dependency field's annotation, as `_inject_entity_dependencies`
classifies it: one of the five primitive type objects
`(bool, str, int, float, type(None))`, a non-class annotation, or a class. -/
inductive TypeAnn
  | primitive (tyName : String)
  | nonClass
  | cls (c : AnnClass)
deriving DecidableEq, Repr

/-- A registrable entity class: the class itself plus its `__annotations__`
(declared dependency fields, in declaration order). -/
structure EntityCls where
  cls : AnnClass
  annotations : List (String × TypeAnn)
deriving DecidableEq, Repr

/-- A constructed Python object: the id and `__name__` of its runtime class
plus a fresh allocation identifier standing for object identity. -/
structure Instance where
  clsId : Nat
  clsName : String
  allocId : Nat
deriving DecidableEq, Repr

/-- A validated `Properties` instance: runtime class `__name__` (what
`get_name()` returns), the class's `__key__`, and its validated fields. -/
structure PropInstance where
  clsName : String
  key : String
  fields : Dict String Lit
deriving DecidableEq, Repr

/-- A value assigned by `setattr` during injection. -/
inductive Value
  | prop (p : PropInstance)
  | inst (i : Instance)
deriving DecidableEq, Repr

/-- A bean-factory method of a `BeanCollection`: its name, its
`__annotations__` (parameter name or `"return"` → annotated class
`__name__`), and the runtime class (id and `__name__`) of the object its
body constructs when invoked. -/
structure Factory where
  funcName : String
  annotations : Dict String String
  producedClsId : Nat
  producedClsName : String
deriving DecidableEq, Repr

/-- A registered `BeanCollection` subclass: the class, its dependency-field
annotations, and its factory-candidate methods. -/
structure BeanCollectionCls where
  cls : AnnClass
  annotations : List (String × TypeAnn)
  factories : List Factory
deriving DecidableEq, Repr

/-- `BeanView` from `py_spring/core/entities/bean_collection.py`:
the declared bean name, the keyword arguments the wrapped creation function
was built with, and the produced object. -/
structure BeanView where
  beanName : String
  kwargs : Dict String (Option PropInstance)
  bean : Instance
deriving DecidableEq, Repr

/-- `BeanView.is_valid_bean`: the declared name must equal the runtime class
name of the produced object. -/
def BeanView.isValidBean (v : BeanView) : Bool :=
  v.beanName == v.bean.clsName

/-- The errors the embedded code can raise, one constructor per `raise`
site touched by the claims.  The Python exception class is noted on each
constructor. -/
inductive Err
  /-- `TypeError` in `register_component` / `register_controller` /
  `register_bean_collection` / `register_properties`. -/
  | notSubclass (name : String)
  /-- `ValueError` "[KEY NOT SET]" raised by `Properties.get_key`. -/
  | keyNotSet (clsName : String)
  /-- `ValueError` "[INVALID PROPERTIES KEY]" in
  `_PropertiesLoader.load_properties` (the UnknownKey failure). -/
  | invalidPropertiesKey (key : String)
  /-- Pydantic `ValidationError` from `model_validate` (the
  SchemaValidationError failure), listing the offending fields. -/
  | validationError (key : String) (badFields : List String)
  /-- `TypeError` "[PROPERTIES INITIALIZATION ERROR]" in
  `ApplicationContext.load_properties` (the MissingKey failure). -/
  | propertiesInitializationError (key : String)
  /-- `TypeError` "[PROPERTIES INJECTION ERROR]" in
  `_inject_entity_dependencies` (the PropertiesNotLoaded failure). -/
  | propertiesNotLoaded (clsName key : String)
  /-- `ValueError` "[DEPENDENCY INJECTION FAILED]" in
  `_inject_entity_dependencies`, naming the attribute and the required
  type's `__name__`. -/
  | dependencyResolutionError (attrName tyName : String)
  /-- `BeanConflictError` in `init_ioc_container`. -/
  | beanConflictError (beanName collectionName : String)
  /-- `InvalidBeanError` in `init_ioc_container`. -/
  | invalidBeanError (beanName actualClsName : String)
  /-- `KeyError` from `creation_func.__annotations__["return"]` in
  `scan_beans` when a factory lacks a return annotation. -/
  | missingReturnAnn (funcName : String)
deriving DecidableEq, Repr

/-- The mutable state of `ApplicationContext` (plus the class-level
`_PropertiesLoader.optional_loaded_properties` global, the per-class
attribute dictionaries that `setattr` writes to, and the allocation
counter modelling object identity). -/
structure Ctx where
  componentClsContainer : Dict String EntityCls
  controllerClsContainer : Dict String EntityCls
  singletonComponentInstanceContainer : Dict String Instance
  beanCollectionClsContainer : Dict String BeanCollectionCls
  singletonBeanInstanceContainer : Dict String Instance
  propertiesClsContainer : Dict String AnnClass
  singletonPropertiesInstanceContainer : Dict String PropInstance
  /-- `_PropertiesLoader.optional_loaded_properties` (class variable). -/
  loadedProperties : Dict String PropInstance
  /-- Class attribute dictionaries, keyed by class `id`: the target of
  `setattr(entity, attr_name, value)` where `entity` is a class object. -/
  attrStore : Dict Nat (Dict String Value)
  nextAllocId : Nat
deriving Repr

/-! ## Lookup API (`ApplicationContext.get_component` / `get_bean` /
`get_properties`, py_spring copy, lines 75–110) -/

/-- `get_component`: returns `None` unless the argument is a `Component`
subclass registered (by derived name) in the class container; for a
`Singleton`-scoped argument it reads the singleton instance container, for
a `Prototype`-scoped argument it constructs a fresh instance
(`component_cls()`). -/
def getComponent (ctx : Ctx) (c : AnnClass) : Option Instance × Ctx :=
  if !c.isComponentSub then (none, ctx)
  else if (dictGet ctx.componentClsContainer c.name).isNone then (none, ctx)
  else
    match c.scope with
    | .Singleton => (dictGet ctx.singletonComponentInstanceContainer c.name, ctx)
    | .Prototype =>
      (some ⟨c.id, c.name, ctx.nextAllocId⟩,
        { ctx with nextAllocId := ctx.nextAllocId + 1 })

/-- `get_bean`: looks up the singleton bean container by the argument
class's `__name__`. -/
def getBean (ctx : Ctx) (c : AnnClass) : Option Instance :=
  dictGet ctx.singletonBeanInstanceContainer c.name

/-- `Properties.get_key` (`framework/core/entities/properties/properties.py`):
raises `ValueError` when `__key__` is unset/empty. -/
def getKey (c : AnnClass) : Except Err String :=
  if c.propKey = "" then .error (.keyNotSet c.name) else .ok c.propKey

/-- `get_properties`: keys by `properties_cls.get_key()`; returns `None`
when the key is not registered, else reads the singleton properties
instance container. -/
def getProperties (ctx : Ctx) (c : AnnClass) : Except Err (Option PropInstance) := do
  let key ← getKey c
  if (dictGet ctx.propertiesClsContainer key).isNone then
    return none
  return dictGet ctx.singletonPropertiesInstanceContainer key

/-! ## Registration (`ApplicationContext.register_*`, lines 112–145) -/

/-- `register_component`: `TypeError` unless a `Component` subclass, then a
plain dict assignment at the derived name (`get_name()`, i.e. `__name__`) —
an existing registration under the same name is silently overwritten. -/
def registerComponent (ctx : Ctx) (e : EntityCls) : Ctx × Option Err :=
  if !e.cls.isComponentSub then (ctx, some (.notSubclass e.cls.name))
  else
    ({ ctx with componentClsContainer :=
        dictInsert e.cls.name e ctx.componentClsContainer }, none)

/-- `register_controller` (same shape as `register_component`; the model
marks controller classes by *not* requiring a `Component` capability —
the subclass test is outside the claims and elided to membership of the
controller kind). -/
def registerController (ctx : Ctx) (e : EntityCls) : Ctx :=
  { ctx with controllerClsContainer :=
      dictInsert e.cls.name e ctx.controllerClsContainer }

/-- `register_bean_collection`: dict assignment at `get_name()`. -/
def registerBeanCollection (ctx : Ctx) (b : BeanCollectionCls) : Ctx :=
  { ctx with beanCollectionClsContainer :=
      dictInsert b.cls.name b ctx.beanCollectionClsContainer }

/-- `register_properties`: `TypeError` unless a `Properties` subclass, then
dict assignment at `get_key()` (which may raise `ValueError`). -/
def registerProperties (ctx : Ctx) (c : AnnClass) : Ctx × Option Err :=
  if !c.isPropertiesSub then (ctx, some (.notSubclass c.name))
  else
    match getKey c with
    | .error e => (ctx, some e)
    | .ok key =>
      ({ ctx with propertiesClsContainer :=
          dictInsert key c ctx.propertiesClsContainer }, none)

/-! ## Dependency injection
(`ApplicationContext._inject_entity_dependencies`, lines 216–254, and
`inject_dependencies_for_app_entities`, lines 264–272) -/

/-- `setattr(entity, attr_name, value)` where `entity` is a class object:
updates the class's attribute dictionary in the store. -/
def setattrCls (ctx : Ctx) (tid : Nat) (attr : String) (v : Value) : Ctx :=
  let clsDict := (dictGet ctx.attrStore tid).getD []
  { ctx with attrStore := dictInsert tid (dictInsert attr v clsDict) ctx.attrStore }

/-- Python attribute lookup on an instance whose `__init__` stored nothing
under the dependency-field names (true of `Component()`/`RestController()`
defaults): falls through to the class attribute dictionary. -/
def instanceGetattr (ctx : Ctx) (i : Instance) (attr : String) : Option Value :=
  dictGet ((dictGet ctx.attrStore i.clsId).getD []) attr

/-- The loop body of `_inject_entity_dependencies` over
`entity.__annotations__.items()` in declaration order, writing through
`setattr` onto the class with id `tid`.  Primitive-typed and non-class
annotations are skipped; `Properties` subclasses are resolved via
`get_properties` (raising `TypeError` when absent); anything else is tried
against the getters `[get_component, get_bean]` in that fixed order, the
first non-`None` result being assigned; if neither resolves a `ValueError`
naming the attribute and the required type is raised. -/
def injectFields (ctx : Ctx) (tid : Nat) :
    List (String × TypeAnn) → Ctx × Option Err
  | [] => (ctx, none)
  | (attr, ann) :: rest =>
    match ann with
    | .primitive _ => injectFields ctx tid rest
    | .nonClass => injectFields ctx tid rest
    | .cls c =>
      if c.isPropertiesSub then
        match getProperties ctx c with
        | .error e => (ctx, some e)
        | .ok none => (ctx, some (.propertiesNotLoaded c.name c.propKey))
        | .ok (some p) => injectFields (setattrCls ctx tid attr (.prop p)) tid rest
      else
        match getComponent ctx c with
        | (some i, ctx1) => injectFields (setattrCls ctx1 tid attr (.inst i)) tid rest
        | (none, ctx1) =>
          match getBean ctx1 c with
          | some b => injectFields (setattrCls ctx1 tid attr (.inst b)) tid rest
          | none => (ctx1, some (.dependencyResolutionError attr c.name))

/-- `_inject_entity_dependencies` applied to one entity class. -/
def injectEntityDependencies (ctx : Ctx) (e : EntityCls) : Ctx × Option Err :=
  injectFields ctx e.cls.id e.annotations

/-! ## Properties loading
(`framework/core/entities/properties/properties_loader.py` — the loader file
imported by the context; the py_spring tree ships the same loader — and
`ApplicationContext.load_properties`, py_spring copy, lines 156–173).
The on-disk read/parse is out of scope; the model starts from the parsed
top-level document. -/

/-- Does a literal validate against a declared pydantic field type? -/
def litMatches : PFieldType → Lit → Bool
  | .string, .str _ => true
  | .integer, .int _ => true
  | _, _ => false

/-- Pydantic `Properties.model_validate(value)`: every declared field must
be present in the value object and type-check; offending fields (missing or
mistyped) are collected into the `ValidationError`.  Extra keys in the
value are ignored (pydantic default).  On success the instance carries the
declared fields with their validated values. -/
def modelValidate (c : AnnClass) (v : RawObj) : Except Err PropInstance :=
  let bad := (c.fields.filter fun kv =>
    match dictGet v kv.1 with
    | none => true
    | some lit => !litMatches kv.2 lit).map (·.1)
  if bad.isEmpty then
    .ok ⟨c.name, c.propKey,
      c.fields.filterMap fun kv => (dictGet v kv.1).map ((kv.1, ·))⟩
  else
    .error (.validationError c.propKey bad)

/-- `_PropertiesLoader._load_classes_as_map`: `{cls.get_key(): cls}` over
the registered properties classes (each `get_key` may raise). -/
def loadClassesAsMap : List AnnClass → Except Err (Dict String AnnClass)
  | [] => .ok []
  | c :: rest => do
    let key ← getKey c
    let m ← loadClassesAsMap rest
    -- dict-comprehension semantics: a later class with the same key wins
    .ok (dictInsert key c m)

/-- The loop of `_PropertiesLoader.load_properties` over the document's
top-level items: an unregistered key raises `ValueError` (UnknownKey), else
the value is validated against the registered schema
(`model_validate`, raising on failure), and the instance recorded. -/
def loaderLoadProperties (classMap : Dict String AnnClass)
    (acc : Dict String PropInstance) :
    List (String × RawObj) → Except Err (Dict String PropInstance)
  | [] => .ok acc
  | (key, value) :: rest =>
    match dictGet classMap key with
    | none => .error (.invalidPropertiesKey key)
    | some c =>
      match modelValidate c value with
      | .error e => .error e
      | .ok p => loaderLoadProperties classMap (dictInsert key p acc) rest

/-- The loop of `ApplicationContext.load_properties` over the registered
properties classes: each registered key must appear in the loader's result
(`TypeError` — MissingKey — otherwise); found instances are stored in the
singleton properties instance container one by one, so a raise leaves the
already-stored prefix behind. -/
def storeProperties (instDict : Dict String PropInstance) (ctx : Ctx) :
    List (String × AnnClass) → Ctx × Option Err
  | [] => (ctx, none)
  | (key, _cls) :: rest =>
    match dictGet instDict key with
    | none => (ctx, some (.propertiesInitializationError key))
    | some p =>
      storeProperties instDict
        { ctx with singletonPropertiesInstanceContainer :=
            dictInsert key p ctx.singletonPropertiesInstanceContainer } rest

/-- `ApplicationContext.load_properties`: build the loader from the
registered properties classes, run it on the parsed document, store one
instance per registered key, then publish the container as
`_PropertiesLoader.optional_loaded_properties`. -/
def ctxLoadProperties (ctx : Ctx) (doc : List (String × RawObj)) :
    Ctx × Option Err :=
  match loadClassesAsMap (ctx.propertiesClsContainer.map (·.2)) with
  | .error e => (ctx, some e)
  | .ok classMap =>
    match loaderLoadProperties classMap [] doc with
    | .error e => (ctx, some e)
    | .ok instDict =>
      match storeProperties instDict ctx ctx.propertiesClsContainer with
      | (ctx', some e) => (ctx', some e)
      | (ctx', none) =>
        ({ ctx' with loadedProperties :=
            ctx'.singletonPropertiesInstanceContainer }, none)

/-! ## Bean resolution (`py_spring/core/entities/bean_collection.py` and the
bean half of `ApplicationContext.init_ioc_container`, lines 193–214) -/

/-- `BeanCollection.construct_bean_creation_func`: builds
`{properties.get_name(): properties}` over the currently loaded properties
instances, then binds every annotated parameter except `"return"` to
`properties_container.get(param_cls.__name__)` — a parameter with no match
is bound to `None` (the `.get` default), not left out. -/
def constructBeanCreationFunc (loadedProps : Dict String PropInstance)
    (f : Factory) : Dict String (Option PropInstance) :=
  let propertiesContainer :=
    (loadedProps.map (·.2)).foldl (fun m p => dictInsert p.clsName p m) []
  (f.annotations.filter fun kv => kv.1 ≠ "return").map
    fun kv => (kv.1, dictGet propertiesContainer kv.2)

/-- Lexicographic comparison of char lists by code point (the order Python
compares `str` values with). -/
def charListLe : List Char → List Char → Bool
  | [], _ => true
  | _ :: _, [] => false
  | a :: as, b :: bs =>
    if a.val < b.val then true
    else if b.val < a.val then false
    else charListLe as bs

/-- `s.startswith(p)` on code points. -/
def strStartsWith (s p : String) : Bool :=
  decide (s.data.take p.data.length = p.data)

/-- Insertion sort by method name, modelling the sorted order in which
`dir(cls)` yields attribute names in `scan_beans`. -/
def insertSorted (f : Factory) : List Factory → List Factory
  | [] => [f]
  | g :: rest =>
    if charListLe f.funcName.data g.funcName.data then f :: g :: rest
    else g :: insertSorted f rest

/-- The factory methods of a collection in `dir(cls)` order. -/
def sortedFactories (bc : BeanCollectionCls) : List Factory :=
  bc.factories.foldr insertSorted []

/-- The loop body of `BeanCollection.scan_beans` for one candidate method:
skip unless the name starts with `OBJECT_CREATION_IDENTIFIER = "create"`;
read the declared bean name from the `"return"` annotation (`KeyError` if
absent); build the creation function's kwargs; invoke it, constructing the
object the factory body produces (a fresh allocation). -/
def scanBeansLoop (ctx : Ctx) (views : List BeanView) :
    List Factory → Except Err (List BeanView × Ctx)
  | [] => .ok (views, ctx)
  | f :: rest =>
    if !strStartsWith f.funcName "create" then scanBeansLoop ctx views rest
    else
      match dictGet f.annotations "return" with
      | none => .error (.missingReturnAnn f.funcName)
      | some beanName =>
        scanBeansLoop { ctx with nextAllocId := ctx.nextAllocId + 1 }
          (views ++ [⟨beanName, constructBeanCreationFunc ctx.loadedProperties f,
            ⟨f.producedClsId, f.producedClsName, ctx.nextAllocId⟩⟩]) rest

/-- `BeanCollection.scan_beans`. -/
def scanBeans (ctx : Ctx) (bc : BeanCollectionCls) :
    Except Err (List BeanView × Ctx) :=
  scanBeansLoop ctx [] (sortedFactories bc)

/-- The per-view body of the bean loop in `init_ioc_container`: a name
already present in the shared bean container raises `BeanConflictError`
(checked first); a view whose declared name differs from the produced
object's runtime class name raises `InvalidBeanError`; otherwise the bean
is stored under its declared name. -/
def insertBeanView (collectionName : String) (ctx : Ctx) (v : BeanView) :
    Ctx × Option Err :=
  if (dictGet ctx.singletonBeanInstanceContainer v.beanName).isSome then
    (ctx, some (.beanConflictError v.beanName collectionName))
  else if !v.isValidBean then
    (ctx, some (.invalidBeanError v.beanName v.bean.clsName))
  else
    ({ ctx with singletonBeanInstanceContainer :=
        dictInsert v.beanName v.bean ctx.singletonBeanInstanceContainer }, none)

/-- Fold `insertBeanView` over the views of one collection, stopping at the
first raise (state kept). -/
def insertBeanViews (collectionName : String) (ctx : Ctx) :
    List BeanView → Ctx × Option Err
  | [] => (ctx, none)
  | v :: rest =>
    match insertBeanView collectionName ctx v with
    | (ctx', some e) => (ctx', some e)
    | (ctx', none) => insertBeanViews collectionName ctx' rest

/-- The body of the bean loop in `init_ioc_container` for one registered
collection: construct the collection instance (`bean_collection_cls()`, an
allocation), inject the collection class's own dependencies
(`_inject_dependencies_for_bean_collection`), scan its beans, and insert
each resulting view. -/
def processCollection (ctx : Ctx) (bc : BeanCollectionCls) : Ctx × Option Err :=
  match injectFields { ctx with nextAllocId := ctx.nextAllocId + 1 }
      bc.cls.id bc.annotations with
  | (ctx', some e) => (ctx', some e)
  | (ctx', none) =>
    match scanBeans ctx' bc with
    | .error e => (ctx', some e)
    | .ok (views, ctx'') => insertBeanViews bc.cls.name ctx'' views

/-! ## IoC container initialisation
(`ApplicationContext.init_ioc_container`, lines 175–214) -/

/-- The component half of `init_ioc_container`: every registered
`Singleton`-scoped component class is constructed once and stored under its
registration name; `Prototype`-scoped classes are skipped.  Never raises. -/
def initComponentsLoop (ctx : Ctx) : List (String × EntityCls) → Ctx
  | [] => ctx
  | (name, e) :: rest =>
    if e.cls.scope ≠ .Singleton then initComponentsLoop ctx rest
    else
      initComponentsLoop
        { ctx with
          singletonComponentInstanceContainer :=
            dictInsert name ⟨e.cls.id, e.cls.name, ctx.nextAllocId⟩
              ctx.singletonComponentInstanceContainer,
          nextAllocId := ctx.nextAllocId + 1 } rest

/-- Phase 1 of `init_ioc_container` (components). -/
def initIocComponentsPhase (ctx : Ctx) : Ctx :=
  initComponentsLoop ctx ctx.componentClsContainer

/-- Phase 2 of `init_ioc_container` (beans), over the registered
collections in registration order. -/
def initIocBeansLoop (ctx : Ctx) : List (String × BeanCollectionCls) → Ctx × Option Err
  | [] => (ctx, none)
  | (_, bc) :: rest =>
    match processCollection ctx bc with
    | (ctx', some e) => (ctx', some e)
    | (ctx', none) => initIocBeansLoop ctx' rest

/-- Phase 2 of `init_ioc_container` (beans). -/
def initIocBeansPhase (ctx : Ctx) : Ctx × Option Err :=
  initIocBeansLoop ctx ctx.beanCollectionClsContainer

/-- `ApplicationContext.init_ioc_container`: components first, then beans. -/
def initIocContainer (ctx : Ctx) : Ctx × Option Err :=
  initIocBeansPhase (initIocComponentsPhase ctx)

/-! ## Lifecycle and application orchestration
(`py_spring/core/application/application.py`, `Application.__init_app`
lines 210–219, `_handle_singleton_components_life_cycle` lines 221–230,
`run` lines 255–263; hook triples from
`framework/core/entities/component.py`,
`Component.finish_initialization_cycle` / `finish_destruction_cycle`).
The observable behaviour of the lifecycle hooks is modelled as an event
trace; an `injected` event marks the completion of
`_inject_entity_dependencies` for one entity class. -/

/-- Observable events of the bootstrap/teardown sequence. -/
inductive Event
  | injected (clsId : Nat)
  | preInitHook (allocId : Nat)
  | initHook (allocId : Nat)
  | postInitHook (allocId : Nat)
  | preDestroy (allocId : Nat)
  | destroy (allocId : Nat)
  | postDestroy (allocId : Nat)
deriving DecidableEq, Repr

/-- `Component.finish_initialization_cycle`: the ordered triple
the pre/main/post initialization hooks. -/
def finishInitializationCycle (i : Instance) : List Event :=
  [.preInitHook i.allocId, .initHook i.allocId, .postInitHook i.allocId]

/-- `Component.finish_destruction_cycle`: the ordered triple pre-destroy,
destroy, post-destroy. -/
def finishDestructionCycle (i : Instance) : List Event :=
  [.preDestroy i.allocId, .destroy i.allocId, .postDestroy i.allocId]

/-- `ApplicationContext.get_singleton_component_instances`: the values of
the singleton instance container, in container (insertion) order. -/
def getSingletonComponentInstances (ctx : Ctx) : List Instance :=
  ctx.singletonComponentInstanceContainer.map (·.2)

/-- The loop of `_handle_singleton_components_life_cycle` over a list of
instances: fire the matching hook triple on each, in list order. -/
def lifeCycleTrace (lc : ComponentLifeCycle) : List Instance → List Event
  | [] => []
  | i :: rest =>
    (match lc with
     | .Init => finishInitializationCycle i
     | .Destruction => finishDestructionCycle i) ++ lifeCycleTrace lc rest

/-- `Application._handle_singleton_components_life_cycle`: fire the
matching hook triple on every singleton component instance, in container
order. -/
def handleSingletonComponentsLifeCycle (ctx : Ctx) (lc : ComponentLifeCycle) :
    List Event :=
  lifeCycleTrace lc (getSingletonComponentInstances ctx)

/-- The loop of `inject_dependencies_for_app_entities` over a list of
entity classes, recording an `injected` event as each class's injection
completes. -/
def injectEntities (ctx : Ctx) (tr : List Event) :
    List EntityCls → Ctx × List Event × Option Err
  | [] => (ctx, tr, none)
  | e :: rest =>
    match injectEntityDependencies ctx e with
    | (ctx', some err) => (ctx', tr, some err)
    | (ctx', none) => injectEntities ctx' (tr ++ [.injected e.cls.id]) rest

/-- The injection targets of `inject_dependencies_for_app_entities`: all
registered component classes, then all registered controller classes. -/
def appEntities (ctx : Ctx) : List EntityCls :=
  ctx.componentClsContainer.map (·.2) ++ ctx.controllerClsContainer.map (·.2)

/-- `ApplicationContext.inject_dependencies_for_app_entities`. -/
def injectDependenciesForAppEntities (ctx : Ctx) : Ctx × List Event × Option Err :=
  injectEntities ctx [] (appEntities ctx)

/-- The context-facing phases of `Application.__init_app`, in source order:
`load_properties`, `init_ioc_container` (components then beans),
`inject_dependencies_for_app_entities`, then — only after injection has
completed for every component and controller — the Init lifecycle pass.
(The preceding filesystem-scan/registration/table-creation steps are out of
scope; the model starts from a registered context.)  On a raise the
partially mutated state reached so far is returned with the error. -/
def initAppPartial (ctx₀ : Ctx) (doc : List (String × RawObj)) :
    Ctx × List Event × Option Err :=
  match ctxLoadProperties ctx₀ doc with
  | (ctx₁, some e) => (ctx₁, [], some e)
  | (ctx₁, none) =>
    match initIocBeansPhase (initIocComponentsPhase ctx₁) with
    | (ctx₃, some e) => (ctx₃, [], some e)
    | (ctx₃, none) =>
      match injectDependenciesForAppEntities ctx₃ with
      | (ctx₄, injTr, some e) => (ctx₄, injTr, some e)
      | (ctx₄, injTr, none) =>
        (ctx₄, injTr ++ handleSingletonComponentsLifeCycle ctx₄ .Init, none)

/-- `Application.run`: `try: __init_app(); ... finally:` the Destruction
lifecycle pass over whatever singleton instances exist at that point.
(`__init_controllers`, `__enable_modules` and `__run_server` touch no
container state and are out of scope.)  The result carries the state at
return, the full event trace, and the propagated exception if any. -/
def runApp (ctx₀ : Ctx) (doc : List (String × RawObj)) :
    Ctx × List Event × Option Err :=
  match initAppPartial ctx₀ doc with
  | (ctxF, tr, err) =>
    (ctxF, tr ++ handleSingletonComponentsLifeCycle ctxF .Destruction, err)

/-! ## Event classifiers used by the temporal claims -/

/-- Is the event an injection-completed marker? -/
def isInjectedEvent : Event → Bool
  | .injected _ => true
  | _ => false

/-- Is the event one of the three initialization hooks? -/
def isInitLifecycleEvent : Event → Bool
  | .preInitHook _ => true
  | .initHook _ => true
  | .postInitHook _ => true
  | _ => false

/-- Is the event one of the three destruction hooks? -/
def isDestructionEvent : Event → Bool
  | .preDestroy _ => true
  | .destroy _ => true
  | .postDestroy _ => true
  | _ => false

/-! ## Concrete classes and contexts used to instantiate the theorems -/

/-- `ApplicationContext.__init__`: every container starts empty. -/
def initialCtx : Ctx :=
  { componentClsContainer := []
    controllerClsContainer := []
    singletonComponentInstanceContainer := []
    beanCollectionClsContainer := []
    singletonBeanInstanceContainer := []
    propertiesClsContainer := []
    singletonPropertiesInstanceContainer := []
    loadedProperties := []
    attrStore := []
    nextAllocId := 0 }

/-- Two distinct `Component` subclasses that both derive the name
`"Service"`. -/
def svcA : EntityCls := ⟨⟨1, "Service", true, false, .Singleton, "", []⟩, []⟩

/-- A second, different class with the same derived name as `svcA`. -/
def svcB : EntityCls := ⟨⟨2, "Service", true, false, .Singleton, "", []⟩, []⟩

/-- A singleton component class `Repo` with no dependencies. -/
def repoCls : EntityCls := ⟨⟨3, "Repo", true, false, .Singleton, "", []⟩, []⟩

/-- A prototype component class `Task` with no dependencies. -/
def taskCls : EntityCls := ⟨⟨4, "Task", true, false, .Prototype, "", []⟩, []⟩

/-- A singleton component class `Svc` depending on `Repo`. -/
def svcDepCls : EntityCls :=
  ⟨⟨5, "Svc", true, false, .Singleton, "", []⟩, [("repo", .cls repoCls.cls)]⟩

/-- A class that is registered nowhere (used as an unresolvable
dependency). -/
def missingCls : AnnClass := ⟨6, "Missing", false, false, .Singleton, "", []⟩

/-- A registered `Properties` subclass keyed `"db"` with a `str` field
`host` and an `int` field `port`. -/
def dbCls : AnnClass :=
  ⟨10, "DbProperties", false, true, .Singleton, "db",
    [("host", .string), ("port", .integer)]⟩

/-- The validated instance the `"db"` document below produces. -/
def dbInst : PropInstance :=
  ⟨"DbProperties", "db", [("host", .str "localhost"), ("port", .int 5432)]⟩

/-- A context with only `dbCls` registered. -/
def dbCtx : Ctx := { initialCtx with propertiesClsContainer := [("db", dbCls)] }

/-- The document `{"db": {"host": "localhost", "port": 5432}}`. -/
def dbDoc : List (String × RawObj) :=
  [("db", [("host", .str "localhost"), ("port", .int 5432)])]

/-- A context used to instantiate the injection-algorithm claim: `Repo` is
registered and instantiated, `dbCls` is registered with its instance
loaded. -/
def injDemoCtx : Ctx :=
  { initialCtx with
    componentClsContainer := [("Repo", repoCls)]
    singletonComponentInstanceContainer := [("Repo", ⟨3, "Repo", 0⟩)]
    propertiesClsContainer := [("db", dbCls)]
    singletonPropertiesInstanceContainer := [("db", dbInst)]
    loadedProperties := [("db", dbInst)]
    nextAllocId := 1 }

/-- A bean factory `create_widget` declared to return `Widget` whose body
constructs a `Widget`. -/
def widgetFactory : Factory := ⟨"create_widget", [("return", "Widget")], 20, "Widget"⟩

/-- A bean factory declared to return `Widget` whose body constructs a
`Gadget`. -/
def gadgetFactory : Factory := ⟨"create_widget", [("return", "Widget")], 21, "Gadget"⟩

/-- A bean factory declared to return `Logger`, constructing a `Logger`. -/
def loggerFactory : Factory := ⟨"create_logger", [("return", "Logger")], 22, "Logger"⟩

/-- A bean factory with a parameter `conf` annotated with a type name that
matches no loaded properties instance. -/
def unmatchedParamFactory : Factory :=
  ⟨"create_widget", [("conf", "MissingProps"), ("return", "Widget")], 20, "Widget"⟩

/-- A bean factory with a parameter `conf` annotated `DbProperties`, which
matches the loaded `dbInst`. -/
def confParamFactory : Factory :=
  ⟨"create_widget", [("conf", "DbProperties"), ("return", "Widget")], 20, "Widget"⟩

/-- First bean collection producing a bean named `Logger`. -/
def loggerCollectionA : BeanCollectionCls :=
  ⟨⟨30, "CollectionA", false, false, .Singleton, "", []⟩, [], [loggerFactory]⟩

/-- Second, distinct bean collection also producing a bean named
`Logger`. -/
def loggerCollectionB : BeanCollectionCls :=
  ⟨⟨31, "CollectionB", false, false, .Singleton, "", []⟩, [], [loggerFactory]⟩

/-- A context with the two `Logger`-producing collections registered. -/
def loggerConflictCtx : Ctx :=
  { initialCtx with
    beanCollectionClsContainer :=
      [("CollectionA", loggerCollectionA), ("CollectionB", loggerCollectionB)] }

/-- Two independent singleton components `A` and `B` and a controller, for
the lifecycle-ordering claim. -/
def compACls : EntityCls := ⟨⟨40, "A", true, false, .Singleton, "", []⟩, []⟩

/-- Second independent singleton component. -/
def compBCls : EntityCls := ⟨⟨41, "B", true, false, .Singleton, "", []⟩, []⟩

/-- A controller class with no dependencies. -/
def ctrlCls : EntityCls := ⟨⟨42, "Ctrl", false, false, .Singleton, "", []⟩, []⟩

/-- A context with `A`, `B` and the controller registered. -/
def lifecycleCtx : Ctx :=
  { initialCtx with
    componentClsContainer := [("A", compACls), ("B", compBCls)]
    controllerClsContainer := [("Ctrl", ctrlCls)] }

/-- A context whose injection phase fails after both singletons are
constructed: `A` and a component depending on the unregistered
`Missing`. -/
def failingCtx : Ctx :=
  { initialCtx with
    componentClsContainer :=
      [("A", compACls),
       ("Bad", ⟨⟨43, "Bad", true, false, .Singleton, "", []⟩,
         [("dep", .cls missingCls)]⟩)] }

/-- A context for the scope-semantics claim: one singleton (`Repo`) and
one prototype (`Task`) component registered. -/
def scopeCtx : Ctx :=
  { initialCtx with
    componentClsContainer := [("Repo", repoCls), ("Task", taskCls)] }

/-- `scopeCtx` after `init_ioc_container`: the `Repo` singleton has been
constructed, the prototype `Task` has not. -/
def scopeCtxInit : Ctx :=
  { scopeCtx with
    singletonComponentInstanceContainer := [("Repo", ⟨3, "Repo", 0⟩)]
    nextAllocId := 1 }

/-- A prototype-scoped component class `Proto` (as it appears in an
annotation). -/
def protoSelfCls : AnnClass := ⟨7, "Proto", true, false, .Prototype, "", []⟩

/-- The registered entity for `Proto`, depending on `Repo`. -/
def protoEntity : EntityCls := ⟨protoSelfCls, [("repo", .cls repoCls.cls)]⟩

/-- `injDemoCtx` with the prototype `Proto` registered as well. -/
def protoCtx : Ctx :=
  { injDemoCtx with
    componentClsContainer := [("Repo", repoCls), ("Proto", protoEntity)] }

/-- A context whose shared bean map already holds a bean named
`"Logger"`. -/
def conflictDemoCtx : Ctx :=
  { initialCtx with singletonBeanInstanceContainer := [("Logger", ⟨22, "Logger", 1⟩)] }

/-- A bean collection whose factory declares `Widget` but constructs a
`Gadget`. -/
def gadgetCollection : BeanCollectionCls :=
  ⟨⟨32, "GadgetCollection", false, false, .Singleton, "", []⟩, [], [gadgetFactory]⟩

/-- A context with only `gadgetCollection` registered. -/
def gadgetCtx : Ctx :=
  { initialCtx with beanCollectionClsContainer := [("GadgetCollection", gadgetCollection)] }

/-! ## Dictionary lemmas -/

theorem dictGet_dictInsert_self {α β : Type} [DecidableEq α] (k : α) (v : β)
    (d : Dict α β) : dictGet (dictInsert k v d) k = some v := by
  induction d with
  | nil => simp [dictInsert, dictGet]
  | cons kv rest ih =>
    obtain ⟨k0, v0⟩ := kv
    by_cases h : k0 = k
    · simp [dictInsert, dictGet, h]
    · simp [dictInsert, dictGet, h, ih]

theorem dictGet_dictInsert_ne {α β : Type} [DecidableEq α] {k k' : α} (v : β)
    (d : Dict α β) (h : k ≠ k') :
    dictGet (dictInsert k v d) k' = dictGet d k' := by
  induction d with
  | nil => simp [dictInsert, dictGet, h]
  | cons kv rest ih =>
    obtain ⟨k0, v0⟩ := kv
    by_cases h0 : k0 = k
    · simp [dictInsert, dictGet, h0, h]
    · simp [dictInsert, dictGet, h0, ih]

theorem dictInsert_idem {α β : Type} [DecidableEq α] (k : α) (v : β)
    (d : Dict α β) : dictInsert k v (dictInsert k v d) = dictInsert k v d := by
  induction d with
  | nil => simp [dictInsert]
  | cons kv rest ih =>
    obtain ⟨k0, v0⟩ := kv
    by_cases h : k0 = k
    · simp [dictInsert, h]
    · simp [dictInsert, h, ih]

theorem dictGet_of_mem_nodup {α β : Type} [DecidableEq α] {d : Dict α β}
    {k : α} {v : β} (hmem : (k, v) ∈ d) (hnodup : (d.map Prod.fst).Nodup) :
    dictGet d k = some v := by
  induction d with
  | nil => cases hmem
  | cons kv rest ih =>
    obtain ⟨k0, v0⟩ := kv
    simp only [List.map_cons, List.nodup_cons] at hnodup
    cases hmem with
    | head => simp [dictGet]
    | tail _ h =>
      have hk : k0 ≠ k := by
        intro he
        exact hnodup.1 (he ▸ (List.mem_map.mpr ⟨(k, v), h, rfl⟩))
      simp [dictGet, hk, ih h hnodup.2]

theorem dictGet_append_of_none {α β : Type} [DecidableEq α] {d₁ : Dict α β}
    (d₂ : Dict α β) {k : α} (h : dictGet d₁ k = none) :
    dictGet (d₁ ++ d₂) k = dictGet d₂ k := by
  induction d₁ with
  | nil => simp
  | cons kv rest ih =>
    obtain ⟨k0, v0⟩ := kv
    by_cases h0 : k0 = k
    · simp [dictGet, h0] at h
    · simp only [dictGet, h0, if_false] at h ⊢
      simpa [dictGet, h0] using ih h

theorem dictInsert_eq_append {α β : Type} [DecidableEq α] {d : Dict α β}
    {k : α} (v : β) (h : dictGet d k = none) :
    dictInsert k v d = d ++ [(k, v)] := by
  induction d with
  | nil => simp [dictInsert]
  | cons kv rest ih =>
    obtain ⟨k0, v0⟩ := kv
    by_cases h0 : k0 = k
    · simp [dictGet, h0] at h
    · simp only [dictGet, h0, if_false] at h
      simp [dictInsert, h0, ih h]

/-! ## Claim C2: registration of a duplicate derived name -/

/-- **C2, counterexample.**  The claim says registering a second, distinct
class under an already-taken derived name "fails fast with a NameConflict
error rather than overwriting the first registration".  In the code
`register_component` is a plain dict assignment: registering `svcB` after
`svcA` (two distinct classes, both named `"Service"`) raises nothing and
the container afterwards maps `"Service"` to `svcB`. -/
theorem registerComponent_overwrites_counterexample :
    (registerComponent initialCtx svcA).2 = none ∧
    (registerComponent (registerComponent initialCtx svcA).1 svcB).2 = none ∧
    dictGet (registerComponent (registerComponent initialCtx svcA).1
        svcB).1.componentClsContainer "Service" = some svcB ∧
    svcA ≠ svcB := by
  refine ⟨rfl, rfl, rfl, ?_⟩
  decide

/-- **C2, amended.**  For every pair of classes (distinct or not) that are
`Component` subclasses deriving the same name, the second registration
succeeds without any error and silently overwrites the first; registering
the same class object twice succeeds and leaves the container unchanged. -/
theorem registerComponent_overwrite_semantics (ctx : Ctx) (c₁ c₂ : EntityCls)
    (h₁ : c₁.cls.isComponentSub = true) (h₂ : c₂.cls.isComponentSub = true)
    (_hname : c₁.cls.name = c₂.cls.name) :
    (registerComponent ctx c₁).2 = none ∧
    (registerComponent (registerComponent ctx c₁).1 c₂).2 = none ∧
    dictGet (registerComponent (registerComponent ctx c₁).1
        c₂).1.componentClsContainer c₂.cls.name = some c₂ ∧
    (registerComponent (registerComponent ctx c₁).1 c₁).1.componentClsContainer
      = (registerComponent ctx c₁).1.componentClsContainer := by
  refine ⟨?_, ?_, ?_, ?_⟩
  · simp [registerComponent, h₁]
  · simp [registerComponent, h₁, h₂]
  · simp [registerComponent, h₁, h₂, dictGet_dictInsert_self]
  · simp [registerComponent, h₁, dictInsert_idem]

/-- Witness for the amended C2 theorem at the concrete classes `svcA`,
`svcB`. -/
theorem registerComponent_overwrite_semantics_witness :
    (registerComponent initialCtx svcA).2 = none ∧
    (registerComponent (registerComponent initialCtx svcA).1 svcB).2 = none ∧
    dictGet (registerComponent (registerComponent initialCtx svcA).1
        svcB).1.componentClsContainer svcB.cls.name = some svcB ∧
    (registerComponent (registerComponent initialCtx svcA).1
        svcA).1.componentClsContainer
      = (registerComponent initialCtx svcA).1.componentClsContainer :=
  registerComponent_overwrite_semantics initialCtx svcA svcB rfl rfl rfl

/-! ## Claim C1: the per-field dependency-resolution algorithm -/

/-- `get_properties` with a set key is exactly a lookup of the singleton
properties instance container by the class's key, guarded by the key being
registered. -/
theorem getProperties_eq (ctx : Ctx) (c : AnnClass) (hk : c.propKey ≠ "") :
    getProperties ctx c
      = .ok (if (dictGet ctx.propertiesClsContainer c.propKey).isNone then none
             else dictGet ctx.singletonPropertiesInstanceContainer c.propKey) := by
  simp only [getProperties, getKey, hk, if_false]
  cases h : (dictGet ctx.propertiesClsContainer c.propKey).isNone <;>
    simp [h, Bind.bind, Except.bind, pure, Except.pure]

/-- **C1.**  The per-field algorithm of `_inject_entity_dependencies`,
field by field in declaration order (the list recursion): a field whose
declared type is one of the primitive type objects is skipped and never
injected; a `Properties`-typed field is resolved from the properties map by
the type's key and raises the PropertiesNotLoaded-class `TypeError` when
the instance (or the key's registration) is absent; any other class-typed
field is resolved by the fixed getter order `get_component` then
`get_bean`, the first non-`None` result being assigned, and raises the
DependencyResolutionError-class `ValueError` naming the attribute and the
required type's name when neither getter resolves. -/
theorem injectFields_resolution_algorithm :
    (∀ (ctx : Ctx) (tid : Nat) (attr ty : String) rest,
      injectFields ctx tid ((attr, .primitive ty) :: rest)
        = injectFields ctx tid rest) ∧
    (∀ (ctx : Ctx) (tid : Nat) (attr : String) (c : AnnClass) rest
        (pc : AnnClass) (p : PropInstance),
      c.isPropertiesSub = true → c.propKey ≠ "" →
      dictGet ctx.propertiesClsContainer c.propKey = some pc →
      dictGet ctx.singletonPropertiesInstanceContainer c.propKey = some p →
      injectFields ctx tid ((attr, .cls c) :: rest)
        = injectFields (setattrCls ctx tid attr (.prop p)) tid rest) ∧
    (∀ (ctx : Ctx) (tid : Nat) (attr : String) (c : AnnClass) rest
        (pc : AnnClass),
      c.isPropertiesSub = true → c.propKey ≠ "" →
      dictGet ctx.propertiesClsContainer c.propKey = some pc →
      dictGet ctx.singletonPropertiesInstanceContainer c.propKey = none →
      injectFields ctx tid ((attr, .cls c) :: rest)
        = (ctx, some (.propertiesNotLoaded c.name c.propKey))) ∧
    (∀ (ctx : Ctx) (tid : Nat) (attr : String) (c : AnnClass) rest,
      c.isPropertiesSub = true → c.propKey ≠ "" →
      dictGet ctx.propertiesClsContainer c.propKey = none →
      injectFields ctx tid ((attr, .cls c) :: rest)
        = (ctx, some (.propertiesNotLoaded c.name c.propKey))) ∧
    (∀ (ctx : Ctx) (tid : Nat) (attr : String) (c : AnnClass) rest
        (i : Instance) (ctx1 : Ctx),
      c.isPropertiesSub = false →
      getComponent ctx c = (some i, ctx1) →
      injectFields ctx tid ((attr, .cls c) :: rest)
        = injectFields (setattrCls ctx1 tid attr (.inst i)) tid rest) ∧
    (∀ (ctx : Ctx) (tid : Nat) (attr : String) (c : AnnClass) rest
        (ctx1 : Ctx) (b : Instance),
      c.isPropertiesSub = false →
      getComponent ctx c = (none, ctx1) →
      getBean ctx1 c = some b →
      injectFields ctx tid ((attr, .cls c) :: rest)
        = injectFields (setattrCls ctx1 tid attr (.inst b)) tid rest) ∧
    (∀ (ctx : Ctx) (tid : Nat) (attr : String) (c : AnnClass) rest
        (ctx1 : Ctx),
      c.isPropertiesSub = false →
      getComponent ctx c = (none, ctx1) →
      getBean ctx1 c = none →
      injectFields ctx tid ((attr, .cls c) :: rest)
        = (ctx1, some (.dependencyResolutionError attr c.name))) := by
  refine ⟨fun ctx tid attr ty rest => rfl, ?_, ?_, ?_, ?_, ?_, ?_⟩
  · intro ctx tid attr c rest pc p hP hk hreg hinst
    simp [injectFields, hP, getProperties_eq ctx c hk, hreg, hinst]
  · intro ctx tid attr c rest pc hP hk hreg hinst
    simp [injectFields, hP, getProperties_eq ctx c hk, hreg, hinst]
  · intro ctx tid attr c rest hP hk hreg
    simp [injectFields, hP, getProperties_eq ctx c hk, hreg]
  · intro ctx tid attr c rest i ctx1 hP hgc
    simp [injectFields, hP, hgc]
  · intro ctx tid attr c rest ctx1 b hP hgc hgb
    simp [injectFields, hP, hgc, hgb]
  · intro ctx tid attr c rest ctx1 hP hgc hgb
    simp [injectFields, hP, hgc, hgb]

/-- Witness for C1 at concrete inputs: a primitive field is skipped, a
`Properties` field resolves `dbInst` by key `"db"`, a component field
resolves the `Repo` singleton, and a field typed by the unregistered
`Missing` class raises the DependencyResolutionError-class error. -/
theorem injectFields_resolution_algorithm_witness :
    injectFields injDemoCtx 99 [("count", .primitive "int")]
      = injectFields injDemoCtx 99 [] ∧
    injectFields injDemoCtx 99 [("db", .cls dbCls)]
      = injectFields (setattrCls injDemoCtx 99 "db" (.prop dbInst)) 99 [] ∧
    injectFields injDemoCtx 99 [("repo", .cls repoCls.cls)]
      = injectFields (setattrCls injDemoCtx 99 "repo" (.inst ⟨3, "Repo", 0⟩)) 99 [] ∧
    injectFields injDemoCtx 99 [("dep", .cls missingCls)]
      = (injDemoCtx, some (.dependencyResolutionError "dep" "Missing")) := by
  refine ⟨?_, ?_, ?_, ?_⟩
  · exact injectFields_resolution_algorithm.1 injDemoCtx 99 "count" "int" []
  · exact injectFields_resolution_algorithm.2.1 injDemoCtx 99 "db" dbCls []
      dbCls dbInst rfl (by decide) rfl rfl
  · exact injectFields_resolution_algorithm.2.2.2.2.1 injDemoCtx 99 "repo"
      repoCls.cls [] ⟨3, "Repo", 0⟩ injDemoCtx rfl rfl
  · exact injectFields_resolution_algorithm.2.2.2.2.2.2 injDemoCtx 99 "dep"
      missingCls [] injDemoCtx rfl rfl rfl

/-! ## Claim C7: bean name conflicts in the shared bean map -/

/-- **C7.**  Inserting a produced bean whose declared name already exists
in the shared bean map raises `BeanConflictError` and stores nothing; the
map is shared across collections, so with two registered collections each
producing a bean named `"Logger"`, resolution of the second collection
fails with `BeanConflictError` while the first collection's bean is the
one in the map. -/
theorem beanConflict_on_duplicate_name :
    (∀ (ctx : Ctx) (collName : String) (v : BeanView) (b : Instance),
      dictGet ctx.singletonBeanInstanceContainer v.beanName = some b →
      insertBeanView collName ctx v
        = (ctx, some (.beanConflictError v.beanName collName))) ∧
    (initIocBeansPhase loggerConflictCtx).2
      = some (.beanConflictError "Logger" "CollectionB") ∧
    dictGet (initIocBeansPhase loggerConflictCtx).1.singletonBeanInstanceContainer
        "Logger" = some ⟨22, "Logger", 1⟩ := by
  refine ⟨?_, by decide, by decide⟩
  intro ctx collName v b h
  simp [insertBeanView, h]

/-- Witness for C7's universal part: inserting a second `Logger` bean into
a map already holding one raises `BeanConflictError`. -/
theorem beanConflict_on_duplicate_name_witness :
    insertBeanView "CollectionB" conflictDemoCtx ⟨"Logger", [], ⟨22, "Logger", 3⟩⟩
      = (conflictDemoCtx, some (.beanConflictError "Logger" "CollectionB")) :=
  beanConflict_on_duplicate_name.1 conflictDemoCtx "CollectionB"
    ⟨"Logger", [], ⟨22, "Logger", 3⟩⟩ ⟨22, "Logger", 1⟩ rfl

/-! ## Claim C8: bean validity is name equality -/

/-- **C8.**  For a produced bean whose declared name is not already taken
in the shared map, resolution fails with `InvalidBeanError` exactly when
the produced object's runtime class name differs from the name declared by
the factory's return annotation; when they agree the bean is stored under
the declared name.  A factory declared to return `Widget` whose body
constructs a `Gadget` makes the whole bean phase fail with
`InvalidBeanError`. -/
theorem invalidBean_iff_name_mismatch :
    (∀ (ctx : Ctx) (collName : String) (v : BeanView),
      dictGet ctx.singletonBeanInstanceContainer v.beanName = none →
      (((insertBeanView collName ctx v).2
          = some (.invalidBeanError v.beanName v.bean.clsName))
        ↔ v.bean.clsName ≠ v.beanName)) ∧
    (∀ (ctx : Ctx) (collName : String) (v : BeanView),
      dictGet ctx.singletonBeanInstanceContainer v.beanName = none →
      v.bean.clsName = v.beanName →
      insertBeanView collName ctx v
        = ({ ctx with singletonBeanInstanceContainer :=
              dictInsert v.beanName v.bean ctx.singletonBeanInstanceContainer },
           none)) ∧
    (initIocBeansPhase gadgetCtx).2 = some (.invalidBeanError "Widget" "Gadget") := by
  refine ⟨?_, ?_, by decide⟩
  · intro ctx collName v hfresh
    by_cases hv : v.bean.clsName = v.beanName
    · have hvalid : v.isValidBean = true := by
        simp [BeanView.isValidBean, hv]
      simp [insertBeanView, hfresh, hvalid, hv]
    · have hvalid : v.isValidBean = false := by
        simp [BeanView.isValidBean]
        exact fun h => hv h.symm
      simp [insertBeanView, hfresh, hvalid, hv]
  · intro ctx collName v hfresh hv
    have hvalid : v.isValidBean = true := by
      simp [BeanView.isValidBean, hv]
    simp [insertBeanView, hfresh, hvalid]

/-- Witness for C8 at concrete beans: the `Widget`/`Gadget` mismatch is
rejected and a well-named `Widget` bean is stored. -/
theorem invalidBean_iff_name_mismatch_witness :
    (insertBeanView "GadgetCollection" initialCtx
        ⟨"Widget", [], ⟨21, "Gadget", 1⟩⟩).2
      = some (.invalidBeanError "Widget" "Gadget") ∧
    insertBeanView "WidgetCollection" initialCtx
        ⟨"Widget", [], ⟨20, "Widget", 1⟩⟩
      = ({ initialCtx with
            singletonBeanInstanceContainer := [("Widget", ⟨20, "Widget", 1⟩)] },
         none) := by
  constructor
  · exact (invalidBean_iff_name_mismatch.1 initialCtx "GadgetCollection"
      ⟨"Widget", [], ⟨21, "Gadget", 1⟩⟩ rfl).mpr (by decide)
  · have h := invalidBean_iff_name_mismatch.2.1 initialCtx "WidgetCollection"
      ⟨"Widget", [], ⟨20, "Widget", 1⟩⟩ rfl rfl
    simpa [initialCtx, dictInsert] using h

/-! ## Claim C4: bean-factory parameter binding -/

/-- A key none of whose entries occur in the dict is not found. -/
theorem dictGet_eq_none_of_keys_ne {α β : Type} [DecidableEq α] {d : Dict α β}
    {k : α} (h : ∀ kv ∈ d, kv.1 ≠ k) : dictGet d k = none := by
  induction d with
  | nil => rfl
  | cons kv rest ih =>
    have hk : kv.1 ≠ k := h kv (List.mem_cons_self kv rest)
    obtain ⟨k0, v0⟩ := kv
    simp only [dictGet, if_neg hk]
    exact ih fun kv hm => h kv (List.mem_cons_of_mem _ hm)

/-- Lookup in the kwargs list built by filtering out `"return"` and
binding every other annotation key through `g`. -/
theorem dictGet_filter_map_bind {β : Type} (anns : Dict String String)
    (g : String → β) (param ty : String)
    (hnodup : (anns.map Prod.fst).Nodup)
    (hmem : (param, ty) ∈ anns) (hret : param ≠ "return") :
    dictGet ((anns.filter fun kv => kv.1 ≠ "return").map
        fun kv => (kv.1, g kv.2)) param = some (g ty) := by
  induction anns with
  | nil => cases hmem
  | cons kv rest ih =>
    obtain ⟨k0, t0⟩ := kv
    simp only [List.map_cons, List.nodup_cons] at hnodup
    by_cases hk : k0 = param
    · subst hk
      have hty : t0 = ty := by
        cases hmem with
        | head => rfl
        | tail _ h =>
          exact absurd (List.mem_map.mpr ⟨(k0, ty), h, rfl⟩) hnodup.1
      subst hty
      simp [List.filter_cons, hret, dictGet]
    · have hmem' : (param, ty) ∈ rest := by
        cases hmem with
        | head => exact absurd rfl hk
        | tail _ h => exact h
      by_cases hr : k0 = "return"
      · simp only [List.filter_cons, hr]
        simpa using ih hnodup.2 hmem'
      · have hrec := ih hnodup.2 hmem'
        simpa [List.filter_cons, hr, hk, dictGet] using hrec

/-- **C4, counterexample.**  The claim says a factory parameter with no
matching loaded properties instance "remains unbound so that invoking the
factory constitutes a construction error".  In the code
`construct_bean_creation_func` binds such a parameter to
`properties_container.get(...)`'s default — `None` — so with no properties
loaded the parameter `conf` is bound (to `None`), not left out of the
kwargs. -/
theorem unmatchedParam_bound_to_none_counterexample :
    dictGet (constructBeanCreationFunc [] unmatchedParamFactory) "conf"
      = some none ∧
    constructBeanCreationFunc [] unmatchedParamFactory = [("conf", none)] := by
  exact ⟨by decide, by decide⟩

/-- **C4, amended.**  For every bean factory, each declared parameter other
than `"return"` is bound to the result of looking its annotated type name
up in the map of loaded properties instances keyed by class name — the
matched instance when one exists, `None` otherwise (so invocation always
receives all parameters); `"return"` itself is never bound; and
`scan_beans` invokes the factory with exactly these bound arguments to
produce the bean object recorded in the view. -/
theorem constructBeanCreationFunc_binding (loadedProps : Dict String PropInstance)
    (f : Factory) (hnodup : (f.annotations.map Prod.fst).Nodup) :
    (∀ param ty, (param, ty) ∈ f.annotations → param ≠ "return" →
      dictGet (constructBeanCreationFunc loadedProps f) param
        = some (dictGet
            ((loadedProps.map (·.2)).foldl (fun m p => dictInsert p.clsName p m) [])
            ty)) ∧
    dictGet (constructBeanCreationFunc loadedProps f) "return" = none ∧
    (∀ (ctx : Ctx) (views : List BeanView) rest r,
      ctx.loadedProperties = loadedProps →
      strStartsWith f.funcName "create" = true →
      dictGet f.annotations "return" = some r →
      scanBeansLoop ctx views (f :: rest)
        = scanBeansLoop { ctx with nextAllocId := ctx.nextAllocId + 1 }
            (views ++ [⟨r, constructBeanCreationFunc loadedProps f,
              ⟨f.producedClsId, f.producedClsName, ctx.nextAllocId⟩⟩]) rest) := by
  refine ⟨?_, ?_, ?_⟩
  · intro param ty hmem hret
    exact dictGet_filter_map_bind f.annotations _ param ty hnodup hmem hret
  · apply dictGet_eq_none_of_keys_ne
    intro kv hm
    simp only [constructBeanCreationFunc, List.mem_map] at hm
    obtain ⟨kv', hkv', rfl⟩ := hm
    have := List.of_mem_filter hkv'
    simpa using this
  · intro ctx views rest r hlp hcreate hr
    subst hlp
    simp [scanBeansLoop, hcreate, hr]

/-- Witness for the amended C4 at concrete factories: `conf : DbProperties`
is bound to the loaded `dbInst`, `"return"` is not bound, and scanning a
collection invokes the factory with those kwargs. -/
theorem constructBeanCreationFunc_binding_witness :
    dictGet (constructBeanCreationFunc [("db", dbInst)] confParamFactory) "conf"
      = some (some dbInst) ∧
    dictGet (constructBeanCreationFunc [("db", dbInst)] confParamFactory) "return"
      = none ∧
    scanBeansLoop injDemoCtx [] [confParamFactory]
      = scanBeansLoop { injDemoCtx with nextAllocId := injDemoCtx.nextAllocId + 1 }
          [⟨"Widget", constructBeanCreationFunc [("db", dbInst)] confParamFactory,
            ⟨20, "Widget", injDemoCtx.nextAllocId⟩⟩] [] := by
  have h := constructBeanCreationFunc_binding [("db", dbInst)] confParamFactory
    (by decide)
  refine ⟨?_, h.2.1, ?_⟩
  · exact (h.1 "conf" "DbProperties" (by decide) (by decide)).trans (by decide)
  · exact h.2.2 injDemoCtx [] [] "Widget" rfl (by decide) rfl

/-! ## Preservation lemmas: which context fields each phase never touches -/

/-- `get_component` either leaves the context alone or (for a prototype
construction) only bumps the allocation counter. -/
theorem getComponent_ctx_cases (ctx : Ctx) (c : AnnClass) :
    (getComponent ctx c).2 = ctx ∨
    (getComponent ctx c).2 = { ctx with nextAllocId := ctx.nextAllocId + 1 } := by
  unfold getComponent
  split
  · exact Or.inl rfl
  · split
    · exact Or.inl rfl
    · split
      · exact Or.inl rfl
      · exact Or.inr rfl

/-- The context returned by `get_component` agrees with the input on every
container field. -/
theorem getComponent_preserves_fields (ctx : Ctx) (c : AnnClass) :
    (getComponent ctx c).2.componentClsContainer = ctx.componentClsContainer ∧
    (getComponent ctx c).2.controllerClsContainer = ctx.controllerClsContainer ∧
    (getComponent ctx c).2.singletonComponentInstanceContainer
        = ctx.singletonComponentInstanceContainer := by
  rcases getComponent_ctx_cases ctx c with h | h <;> rw [h] <;> exact ⟨rfl, rfl, rfl⟩

/-- Injection never touches the class containers or the singleton
component instance container. -/
theorem injectFields_preserves (tid : Nat)
    (anns : List (String × TypeAnn)) : ∀ ctx : Ctx,
    (injectFields ctx tid anns).1.componentClsContainer
        = ctx.componentClsContainer ∧
    (injectFields ctx tid anns).1.controllerClsContainer
        = ctx.controllerClsContainer ∧
    (injectFields ctx tid anns).1.singletonComponentInstanceContainer
        = ctx.singletonComponentInstanceContainer := by
  induction anns with
  | nil => intro ctx; exact ⟨rfl, rfl, rfl⟩
  | cons kv rest ih =>
    intro ctx
    obtain ⟨attr, ann⟩ := kv
    cases ann with
    | primitive t => exact ih ctx
    | nonClass => exact ih ctx
    | cls c =>
      simp only [injectFields]
      split
      · split
        · exact ⟨rfl, rfl, rfl⟩
        · exact ⟨rfl, rfl, rfl⟩
        · exact ih _
      · split
        · rename_i i ctx1 heq
          have hc := getComponent_preserves_fields ctx c
          rw [heq] at hc
          have h1 := ih (setattrCls ctx1 tid attr (.inst i))
          exact ⟨h1.1.trans hc.1, h1.2.1.trans hc.2.1, h1.2.2.trans hc.2.2⟩
        · rename_i ctx1 heq
          have hc := getComponent_preserves_fields ctx c
          rw [heq] at hc
          split
          · rename_i b _
            have h1 := ih (setattrCls ctx1 tid attr (.inst b))
            exact ⟨h1.1.trans hc.1, h1.2.1.trans hc.2.1, h1.2.2.trans hc.2.2⟩
          · exact hc

/-- The bean-scanning loop only bumps the allocation counter. -/
theorem scanBeansLoop_preserves (fs : List Factory) :
    ∀ (ctx : Ctx) (views : List BeanView) (vs : List BeanView) (ctx' : Ctx),
    scanBeansLoop ctx views fs = .ok (vs, ctx') →
    ctx'.componentClsContainer = ctx.componentClsContainer ∧
    ctx'.controllerClsContainer = ctx.controllerClsContainer ∧
    ctx'.singletonComponentInstanceContainer
        = ctx.singletonComponentInstanceContainer ∧
    ctx'.singletonBeanInstanceContainer = ctx.singletonBeanInstanceContainer := by
  induction fs with
  | nil =>
    intro ctx views vs ctx' h
    cases h
    exact ⟨rfl, rfl, rfl, rfl⟩
  | cons f rest ih =>
    intro ctx views vs ctx' h
    unfold scanBeansLoop at h
    split at h
    · exact ih ctx views vs ctx' h
    · split at h
      · cases h
      · have h2 := ih _ _ vs ctx' h
        exact h2

/-- Inserting bean views only touches the shared bean map. -/
theorem insertBeanViews_preserves (vs : List BeanView) :
    ∀ (collName : String) (ctx : Ctx),
    (insertBeanViews collName ctx vs).1.componentClsContainer
        = ctx.componentClsContainer ∧
    (insertBeanViews collName ctx vs).1.controllerClsContainer
        = ctx.controllerClsContainer ∧
    (insertBeanViews collName ctx vs).1.singletonComponentInstanceContainer
        = ctx.singletonComponentInstanceContainer := by
  induction vs with
  | nil => intro collName ctx; exact ⟨rfl, rfl, rfl⟩
  | cons v rest ih =>
    intro collName ctx
    have hone : (insertBeanView collName ctx v).1.componentClsContainer
          = ctx.componentClsContainer ∧
        (insertBeanView collName ctx v).1.controllerClsContainer
          = ctx.controllerClsContainer ∧
        (insertBeanView collName ctx v).1.singletonComponentInstanceContainer
          = ctx.singletonComponentInstanceContainer := by
      unfold insertBeanView
      split
      · exact ⟨rfl, rfl, rfl⟩
      · split
        · exact ⟨rfl, rfl, rfl⟩
        · exact ⟨rfl, rfl, rfl⟩
    unfold insertBeanViews
    split
    · rename_i ctx' e hp
      rw [hp] at hone
      exact hone
    · rename_i ctx' hp
      rw [hp] at hone
      have h1 := ih collName ctx'
      exact ⟨h1.1.trans hone.1, h1.2.1.trans hone.2.1, h1.2.2.trans hone.2.2⟩

/-- The whole bean phase leaves the class containers and the singleton
component instance container unchanged (whether or not it raises). -/
theorem initIocBeansLoop_preserves (l : List (String × BeanCollectionCls)) :
    ∀ ctx : Ctx,
    (initIocBeansLoop ctx l).1.componentClsContainer
        = ctx.componentClsContainer ∧
    (initIocBeansLoop ctx l).1.controllerClsContainer
        = ctx.controllerClsContainer ∧
    (initIocBeansLoop ctx l).1.singletonComponentInstanceContainer
        = ctx.singletonComponentInstanceContainer := by
  induction l with
  | nil => intro ctx; exact ⟨rfl, rfl, rfl⟩
  | cons kv rest ih =>
    intro ctx
    obtain ⟨name, bc⟩ := kv
    have hstep : ∀ ctx0 : Ctx,
        (processCollection ctx0 bc).1.componentClsContainer
            = ctx0.componentClsContainer ∧
        (processCollection ctx0 bc).1.controllerClsContainer
            = ctx0.controllerClsContainer ∧
        (processCollection ctx0 bc).1.singletonComponentInstanceContainer
            = ctx0.singletonComponentInstanceContainer := by
      intro ctx0
      unfold processCollection
      split
      · rename_i ctxI e hinj
        have hpre := injectFields_preserves bc.cls.id bc.annotations
          { ctx0 with nextAllocId := ctx0.nextAllocId + 1 }
        rw [hinj] at hpre
        exact hpre
      · rename_i ctxI hinj
        have hpre := injectFields_preserves bc.cls.id bc.annotations
          { ctx0 with nextAllocId := ctx0.nextAllocId + 1 }
        rw [hinj] at hpre
        split
        · exact hpre
        · rename_i views ctxS hscan
          have hsp := scanBeansLoop_preserves (sortedFactories bc) ctxI [] views
            ctxS hscan
          have hiv := insertBeanViews_preserves views bc.cls.name ctxS
          exact ⟨hiv.1.trans (hsp.1.trans hpre.1),
            hiv.2.1.trans (hsp.2.1.trans hpre.2.1),
            hiv.2.2.trans (hsp.2.2.1.trans hpre.2.2)⟩
    unfold initIocBeansLoop
    split
    · rename_i ctx' e hp
      have h0 := hstep ctx
      rw [hp] at h0
      exact h0
    · rename_i ctx' hp
      have h0 := hstep ctx
      rw [hp] at h0
      have h1 := ih ctx'
      exact ⟨h1.1.trans h0.1, h1.2.1.trans h0.2.1, h1.2.2.trans h0.2.2⟩

/-- Phase 1 of `init_ioc_container` leaves every class container (and the
properties state) unchanged: it only fills the singleton component
instance container and bumps the allocation counter. -/
theorem initComponentsLoop_preserves (l : List (String × EntityCls)) :
    ∀ ctx : Ctx,
    (initComponentsLoop ctx l).componentClsContainer
        = ctx.componentClsContainer ∧
    (initComponentsLoop ctx l).controllerClsContainer
        = ctx.controllerClsContainer ∧
    (initComponentsLoop ctx l).beanCollectionClsContainer
        = ctx.beanCollectionClsContainer ∧
    (initComponentsLoop ctx l).loadedProperties = ctx.loadedProperties := by
  induction l with
  | nil => intro ctx; exact ⟨rfl, rfl, rfl, rfl⟩
  | cons kv rest ih =>
    intro ctx
    obtain ⟨name, e⟩ := kv
    unfold initComponentsLoop
    split
    · exact ih ctx
    · exact ih _

/-- The properties-loading phase leaves the class containers and both
singleton object containers unchanged. -/
theorem storeProperties_preserves (l : List (String × AnnClass))
    (instDict : Dict String PropInstance) : ∀ ctx : Ctx,
    (storeProperties instDict ctx l).1.componentClsContainer
        = ctx.componentClsContainer ∧
    (storeProperties instDict ctx l).1.controllerClsContainer
        = ctx.controllerClsContainer ∧
    (storeProperties instDict ctx l).1.beanCollectionClsContainer
        = ctx.beanCollectionClsContainer ∧
    (storeProperties instDict ctx l).1.singletonComponentInstanceContainer
        = ctx.singletonComponentInstanceContainer := by
  induction l with
  | nil => intro ctx; exact ⟨rfl, rfl, rfl, rfl⟩
  | cons kv rest ih =>
    intro ctx
    obtain ⟨key, c⟩ := kv
    unfold storeProperties
    split
    · exact ⟨rfl, rfl, rfl, rfl⟩
    · exact ih _

/-- `load_properties` as a whole preserves the class containers and the
singleton component instance container. -/
theorem ctxLoadProperties_preserves (ctx : Ctx) (doc : List (String × RawObj)) :
    (ctxLoadProperties ctx doc).1.componentClsContainer
        = ctx.componentClsContainer ∧
    (ctxLoadProperties ctx doc).1.controllerClsContainer
        = ctx.controllerClsContainer ∧
    (ctxLoadProperties ctx doc).1.beanCollectionClsContainer
        = ctx.beanCollectionClsContainer ∧
    (ctxLoadProperties ctx doc).1.singletonComponentInstanceContainer
        = ctx.singletonComponentInstanceContainer := by
  unfold ctxLoadProperties
  split
  · exact ⟨rfl, rfl, rfl, rfl⟩
  · split
    · exact ⟨rfl, rfl, rfl, rfl⟩
    · rename_i classMap _ instDict _
      rcases hs : storeProperties instDict ctx ctx.propertiesClsContainer
        with ⟨ctx', err⟩
      have h0 := storeProperties_preserves ctx.propertiesClsContainer instDict ctx
      rw [hs] at h0
      match err with
      | some e => simpa [hs] using h0
      | none => simpa [hs] using h0

/-! ## Phase 1 fills the singleton instance container -/

/-- Keys not mentioned in the remaining registration list keep their
instance-container binding through phase 1. -/
theorem initComponentsLoop_lookup_preserved (l : List (String × EntityCls)) :
    ∀ (ctx : Ctx) (n : String), (∀ kv ∈ l, kv.1 ≠ n) →
    dictGet (initComponentsLoop ctx l).singletonComponentInstanceContainer n
      = dictGet ctx.singletonComponentInstanceContainer n := by
  induction l with
  | nil => intro ctx n _; rfl
  | cons kv rest ih =>
    intro ctx n h
    obtain ⟨k, e⟩ := kv
    have hk : k ≠ n := h (k, e) (List.mem_cons_self _ _)
    have hrest : ∀ kv ∈ rest, kv.1 ≠ n :=
      fun kv hm => h kv (List.mem_cons_of_mem _ hm)
    unfold initComponentsLoop
    split
    · exact ih ctx n hrest
    · rw [ih _ n hrest]
      exact dictGet_dictInsert_ne _ _ hk

/-- Every `Singleton`-scoped registered class ends phase 1 with an
instance of itself stored under its registration name. -/
theorem initComponentsLoop_lookup (l : List (String × EntityCls)) :
    ∀ (ctx : Ctx) (n : String) (e : EntityCls), (n, e) ∈ l →
    (l.map Prod.fst).Nodup → e.cls.scope = .Singleton →
    ∃ a, dictGet (initComponentsLoop ctx l).singletonComponentInstanceContainer n
      = some ⟨e.cls.id, e.cls.name, a⟩ := by
  induction l with
  | nil => intro ctx n e hmem; cases hmem
  | cons kv rest ih =>
    intro ctx n e hmem hnodup hscope
    obtain ⟨k, e0⟩ := kv
    simp only [List.map_cons, List.nodup_cons] at hnodup
    cases hmem with
    | head =>
      refine ⟨ctx.nextAllocId, ?_⟩
      unfold initComponentsLoop
      rw [if_neg (by simp [hscope])]
      have hrest : ∀ kv ∈ rest, kv.1 ≠ n := by
        intro kv hm he
        exact hnodup.1 (he ▸ List.mem_map.mpr ⟨kv, hm, rfl⟩)
      rw [initComponentsLoop_lookup_preserved rest _ n hrest]
      exact dictGet_dictInsert_self _ _ _
    | tail _ hmem' =>
      unfold initComponentsLoop
      split
      · exact ih ctx n e hmem' hnodup.2 hscope
      · exact ih _ n e hmem' hnodup.2 hscope

/-! ## Claim C3: singleton vs prototype lookup semantics -/

/-- **C3.**  After `init_ioc_container` completes, a `Singleton`-scoped
registered component class resolves, on two successive `get_component`
lookups, to the identical stored instance (the lookup does not change the
context); a `Prototype`-scoped registered component class resolves to two
distinct freshly constructed instances of that class. -/
theorem getComponent_scope_semantics (ctx₀ ctx₁ : Ctx) (c : EntityCls)
    (hkeys : (ctx₀.componentClsContainer.map Prod.fst).Nodup)
    (hreg : (c.cls.name, c) ∈ ctx₀.componentClsContainer)
    (hsub : c.cls.isComponentSub = true)
    (hinit : initIocContainer ctx₀ = (ctx₁, none)) :
    (c.cls.scope = .Singleton →
      ∃ inst : Instance,
        getComponent ctx₁ c.cls = (some inst, ctx₁) ∧
        getComponent (getComponent ctx₁ c.cls).2 c.cls = (some inst, ctx₁) ∧
        inst.clsId = c.cls.id ∧ inst.clsName = c.cls.name) ∧
    (c.cls.scope = .Prototype →
      ∃ i₁ i₂ : Instance,
        (getComponent ctx₁ c.cls).1 = some i₁ ∧
        (getComponent (getComponent ctx₁ c.cls).2 c.cls).1 = some i₂ ∧
        i₁ ≠ i₂ ∧
        i₁.clsId = c.cls.id ∧ i₁.clsName = c.cls.name ∧
        i₂.clsId = c.cls.id ∧ i₂.clsName = c.cls.name) := by
  have hbeans := initIocBeansLoop_preserves
    (initIocComponentsPhase ctx₀).beanCollectionClsContainer
    (initIocComponentsPhase ctx₀)
  have hinit' : (initIocBeansLoop (initIocComponentsPhase ctx₀)
      (initIocComponentsPhase ctx₀).beanCollectionClsContainer).1 = ctx₁ := by
    have : initIocBeansPhase (initIocComponentsPhase ctx₀) = (ctx₁, none) := hinit
    rw [show initIocBeansPhase (initIocComponentsPhase ctx₀)
        = initIocBeansLoop (initIocComponentsPhase ctx₀)
            (initIocComponentsPhase ctx₀).beanCollectionClsContainer from rfl] at this
    exact congrArg Prod.fst this
  rw [hinit'] at hbeans
  have hcompPres := initComponentsLoop_preserves ctx₀.componentClsContainer ctx₀
  -- the class container in the final context is the original one
  have hcls : ctx₁.componentClsContainer = ctx₀.componentClsContainer :=
    hbeans.1.trans hcompPres.1
  have hlook : dictGet ctx₁.componentClsContainer c.cls.name = some c := by
    rw [hcls]; exact dictGet_of_mem_nodup hreg hkeys
  constructor
  · intro hscope
    obtain ⟨a, ha⟩ := initComponentsLoop_lookup ctx₀.componentClsContainer ctx₀
      c.cls.name c hreg hkeys hscope
    have hinst : dictGet ctx₁.singletonComponentInstanceContainer c.cls.name
        = some ⟨c.cls.id, c.cls.name, a⟩ := by
      rw [hbeans.2.2]; exact ha
    refine ⟨⟨c.cls.id, c.cls.name, a⟩, ?_, ?_, rfl, rfl⟩
    · simp [getComponent, hsub, hlook, hscope, hinst]
    · simp [getComponent, hsub, hlook, hscope, hinst]
  · intro hscope
    refine ⟨⟨c.cls.id, c.cls.name, ctx₁.nextAllocId⟩,
      ⟨c.cls.id, c.cls.name, ctx₁.nextAllocId + 1⟩, ?_, ?_, ?_, rfl, rfl, rfl, rfl⟩
    · simp [getComponent, hsub, hlook, hscope]
    · simp [getComponent, hsub, hlook, hscope]
    · intro h
      have := congrArg Instance.allocId h
      simp at this

/-- Witness for C3: in `scopeCtx` after `init_ioc_container`, the singleton
`Repo` resolves twice to the identical instance and the prototype `Task`
resolves to two distinct fresh instances. -/
theorem getComponent_scope_semantics_witness :
    (∃ inst : Instance,
      getComponent scopeCtxInit repoCls.cls = (some inst, scopeCtxInit) ∧
      getComponent (getComponent scopeCtxInit repoCls.cls).2 repoCls.cls
        = (some inst, scopeCtxInit) ∧
      inst.clsId = repoCls.cls.id ∧ inst.clsName = repoCls.cls.name) ∧
    (∃ i₁ i₂ : Instance,
      (getComponent scopeCtxInit taskCls.cls).1 = some i₁ ∧
      (getComponent (getComponent scopeCtxInit taskCls.cls).2 taskCls.cls).1
        = some i₂ ∧
      i₁ ≠ i₂ ∧ i₁.clsId = taskCls.cls.id ∧ i₁.clsName = taskCls.cls.name ∧
      i₂.clsId = taskCls.cls.id ∧ i₂.clsName = taskCls.cls.name) :=
  ⟨(getComponent_scope_semantics scopeCtx scopeCtxInit repoCls (by decide)
      (by decide) rfl rfl).1 rfl,
   (getComponent_scope_semantics scopeCtx scopeCtxInit taskCls (by decide)
      (by decide) rfl rfl).2 rfl⟩

/-! ## Claim C9: injection writes class attributes, framed to the target -/

/-- `get_component` never touches the class attribute store. -/
theorem getComponent_attrStore (ctx : Ctx) (c : AnnClass) :
    (getComponent ctx c).2.attrStore = ctx.attrStore := by
  rcases getComponent_ctx_cases ctx c with h | h <;> rw [h]

/-- Injecting the class with id `tid` leaves every other class's attribute
dictionary untouched. -/
theorem injectFields_attrStore_frame (tid : Nat)
    (anns : List (String × TypeAnn)) : ∀ (ctx : Ctx) (tid' : Nat), tid' ≠ tid →
    dictGet (injectFields ctx tid anns).1.attrStore tid'
      = dictGet ctx.attrStore tid' := by
  induction anns with
  | nil => intro ctx tid' _; rfl
  | cons kv rest ih =>
    intro ctx tid' hne
    obtain ⟨attr, ann⟩ := kv
    have hset : ∀ (ctx0 : Ctx) (v : Value),
        dictGet (setattrCls ctx0 tid attr v).attrStore tid'
          = dictGet ctx0.attrStore tid' := by
      intro ctx0 v
      exact dictGet_dictInsert_ne _ _ (fun h => hne h.symm)
    cases ann with
    | primitive t => exact ih ctx tid' hne
    | nonClass => exact ih ctx tid' hne
    | cls c =>
      simp only [injectFields]
      split
      · split
        · rfl
        · rfl
        · rename_i p _
          rw [ih _ tid' hne, hset ctx (.prop p)]
      · split
        · rename_i i ctx1 heq
          have hc : ctx1.attrStore = ctx.attrStore := by
            have := getComponent_attrStore ctx c
            rw [heq] at this
            exact this
          rw [ih _ tid' hne, hset ctx1 (.inst i), hc]
        · rename_i ctx1 heq
          have hc : ctx1.attrStore = ctx.attrStore := by
            have := getComponent_attrStore ctx c
            rw [heq] at this
            exact this
          split
          · rename_i b _
            rw [ih _ tid' hne, hset ctx1 (.inst b), hc]
          · exact congrArg (dictGet · tid') hc

/-- **C9.**  `_inject_entity_dependencies` assigns resolved dependencies by
`setattr` on the entity *class*: (1) every class other than the target
keeps its attribute dictionary unchanged, whether or not injection
succeeds; (2) any instance of the injected class reads dependency
attributes from the class's attribute dictionary; (3) in particular a
prototype instance constructed by `get_component` *after* injection reads
the same class-level values; (4) a dependency resolved from the component
container is stored in the class dictionary under its field name. -/
theorem injection_assigns_on_class (ctx : Ctx) (e : EntityCls) :
    (∀ tid', tid' ≠ e.cls.id →
      dictGet (injectEntityDependencies ctx e).1.attrStore tid'
        = dictGet ctx.attrStore tid') ∧
    (∀ i : Instance, i.clsId = e.cls.id → ∀ attr,
      instanceGetattr (injectEntityDependencies ctx e).1 i attr
        = dictGet ((dictGet (injectEntityDependencies ctx e).1.attrStore
            e.cls.id).getD []) attr) ∧
    (∀ (c : AnnClass) (i : Instance) (ctx'' : Ctx),
      c.id = e.cls.id → c.scope = .Prototype →
      getComponent (injectEntityDependencies ctx e).1 c = (some i, ctx'') →
      ∀ attr, instanceGetattr ctx'' i attr
        = dictGet ((dictGet (injectEntityDependencies ctx e).1.attrStore
            e.cls.id).getD []) attr) ∧
    (∀ (attr : String) (c : AnnClass) (i : Instance) (ctx1 : Ctx),
      e.annotations = [(attr, .cls c)] → c.isPropertiesSub = false →
      getComponent ctx c = (some i, ctx1) →
      dictGet ((dictGet (injectEntityDependencies ctx e).1.attrStore
          e.cls.id).getD []) attr = some (.inst i)) := by
  refine ⟨?_, ?_, ?_, ?_⟩
  · intro tid' hne
    exact injectFields_attrStore_frame e.cls.id e.annotations ctx tid' hne
  · intro i hi attr
    unfold instanceGetattr
    rw [hi]
  · intro c i ctx'' hid hscope hg attr
    unfold getComponent at hg
    split at hg
    · cases hg
    · split at hg
      · cases hg
      · split at hg
        · rename_i hsing
          rw [hscope] at hsing
          cases hsing
        · obtain ⟨hi, hctx⟩ := Prod.mk.injEq .. ▸ hg
          cases hi
          rw [← hctx]
          unfold instanceGetattr
          rw [hid]
  · intro attr c i ctx1 hann hP hg
    unfold injectEntityDependencies
    rw [hann]
    simp [injectFields, hP, hg, setattrCls, dictGet_dictInsert_self]

/-- Witness for C9: injecting the `Proto` class (id 7) leaves class 3's
attributes untouched, stores the resolved `Repo` instance under `"repo"`
in class 7's dictionary, and a prototype instance constructed afterwards
reads that class-level value. -/
theorem injection_assigns_on_class_witness :
    dictGet (injectEntityDependencies protoCtx protoEntity).1.attrStore 3
      = dictGet protoCtx.attrStore 3 ∧
    dictGet ((dictGet (injectEntityDependencies protoCtx
          protoEntity).1.attrStore 7).getD []) "repo"
      = some (.inst ⟨3, "Repo", 0⟩) ∧
    instanceGetattr
        { (injectEntityDependencies protoCtx protoEntity).1 with nextAllocId := 2 }
        ⟨7, "Proto", 1⟩ "repo"
      = dictGet ((dictGet (injectEntityDependencies protoCtx
          protoEntity).1.attrStore 7).getD []) "repo" := by
  have h := injection_assigns_on_class protoCtx protoEntity
  refine ⟨h.1 3 (by decide), ?_, ?_⟩
  · exact h.2.2.2 "repo" repoCls.cls ⟨3, "Repo", 0⟩ protoCtx rfl rfl rfl
  · exact h.2.2.1 protoSelfCls ⟨7, "Proto", 1⟩ _ rfl rfl rfl "repo"

/-! ## Claim C5: properties loading -/

/-- Inserting never removes a key. -/
theorem dictGet_isSome_dictInsert {α β : Type} [DecidableEq α] {d : Dict α β}
    {k : α} (k' : α) (v : β) (h : ∃ p, dictGet d k = some p) :
    ∃ p, dictGet (dictInsert k' v d) k = some p := by
  by_cases he : k' = k
  · exact ⟨v, he ▸ dictGet_dictInsert_self k' v d⟩
  · obtain ⟨p, hp⟩ := h
    exact ⟨p, (dictGet_dictInsert_ne v d he).trans hp⟩

/-- The keys of `dictInsert k v d` are among `k` and the keys of `d`. -/
theorem dictInsert_keys_subset {α β : Type} [DecidableEq α] (k : α) (v : β)
    (d : Dict α β) :
    ∀ x ∈ (dictInsert k v d).map Prod.fst, x = k ∨ x ∈ d.map Prod.fst := by
  induction d with
  | nil =>
    intro x hx
    simp only [dictInsert, List.map_cons, List.map_nil,
      List.mem_singleton] at hx
    exact Or.inl hx
  | cons kv rest ih =>
    intro x hx
    obtain ⟨k0, v0⟩ := kv
    by_cases h : k0 = k
    · rw [show dictInsert k v ((k0, v0) :: rest) = (k, v) :: rest from by
        simp [dictInsert, h]] at hx
      simp only [List.map_cons, List.mem_cons] at hx
      rcases hx with hx | hx
      · exact Or.inl hx
      · exact Or.inr (by simp [List.mem_cons, hx])
    · rw [show dictInsert k v ((k0, v0) :: rest) = (k0, v0) :: dictInsert k v rest
        from by simp [dictInsert, h]] at hx
      simp only [List.map_cons, List.mem_cons] at hx
      rcases hx with hx | hx
      · exact Or.inr (by simp [List.mem_cons, hx])
      · rcases ih x hx with h' | h'
        · exact Or.inl h'
        · exact Or.inr (by simp [List.mem_cons, h'])

/-- `dictInsert` preserves key uniqueness. -/
theorem dictInsert_keys_nodup {α β : Type} [DecidableEq α] (k : α) (v : β)
    (d : Dict α β) (h : (d.map Prod.fst).Nodup) :
    ((dictInsert k v d).map Prod.fst).Nodup := by
  induction d with
  | nil => simp [dictInsert]
  | cons kv rest ih =>
    obtain ⟨k0, v0⟩ := kv
    simp only [List.map_cons, List.nodup_cons] at h
    by_cases he : k0 = k
    · simp only [dictInsert, he, if_true, List.map_cons, List.nodup_cons]
      exact ⟨he ▸ h.1, h.2⟩
    · simp only [dictInsert, he, if_false, List.map_cons, List.nodup_cons]
      refine ⟨?_, ih h.2⟩
      intro hx
      rcases dictInsert_keys_subset k v rest k0 hx with h' | h'
      · exact he h'
      · exact h.1 h'

/-- A mistyped declared field makes `model_validate` fail with a
validation error listing that field. -/
theorem modelValidate_mistyped (c : AnnClass) (v : RawObj) (fname : String)
    (fty : PFieldType) (lit : Lit) (hmem : (fname, fty) ∈ c.fields)
    (hlook : dictGet v fname = some lit) (hbad : litMatches fty lit = false) :
    ∃ bad, modelValidate c v = .error (.validationError c.propKey bad) ∧
      fname ∈ bad := by
  have hpred : (fun kv : String × PFieldType =>
      match dictGet v kv.1 with
      | none => true
      | some lit => !litMatches kv.2 lit) (fname, fty) = true := by
    simp [hlook, hbad]
  have hmemf : (fname, fty) ∈ c.fields.filter (fun kv =>
      match dictGet v kv.1 with
      | none => true
      | some lit => !litMatches kv.2 lit) :=
    List.mem_filter.mpr ⟨hmem, hpred⟩
  have hmemb : fname ∈ (c.fields.filter fun kv =>
      match dictGet v kv.1 with
      | none => true
      | some lit => !litMatches kv.2 lit).map (·.1) :=
    List.mem_map.mpr ⟨(fname, fty), hmemf, rfl⟩
  refine ⟨_, ?_, hmemb⟩
  unfold modelValidate
  rw [if_neg ?_]
  intro hemp
  rw [List.isEmpty_iff] at hemp
  rw [hemp] at hmemb
  cases hmemb

/-- A valid prefix of the document is consumed by the loader loop without
raising, carrying some accumulated instances. -/
theorem loaderLoadProperties_valid_prefix (classMap : Dict String AnnClass)
    (pre : List (String × RawObj)) :
    ∀ (acc : Dict String PropInstance) (rest : List (String × RawObj)),
    (∀ kv ∈ pre, ∃ c p, dictGet classMap kv.1 = some c ∧
        modelValidate c kv.2 = .ok p) →
    ∃ acc', loaderLoadProperties classMap acc (pre ++ rest)
      = loaderLoadProperties classMap acc' rest := by
  induction pre with
  | nil => intro acc rest _; exact ⟨acc, rfl⟩
  | cons kv pre' ih =>
    intro acc rest h
    obtain ⟨k, v⟩ := kv
    obtain ⟨c, p, hc, hp⟩ := h (k, v) (List.mem_cons_self _ _)
    have hrest : ∀ kv ∈ pre', ∃ c p, dictGet classMap kv.1 = some c ∧
        modelValidate c kv.2 = .ok p :=
      fun kv hm => h kv (List.mem_cons_of_mem _ hm)
    have hc' : dictGet classMap k = some c := hc
    have hp' : modelValidate c v = .ok p := hp
    have hstep : loaderLoadProperties classMap acc (((k, v) :: pre') ++ rest)
        = loaderLoadProperties classMap (dictInsert k p acc) (pre' ++ rest) := by
      simp only [List.cons_append, loaderLoadProperties, hc', hp']
      rfl
    rw [hstep]
    exact ih (dictInsert k p acc) rest hrest

/-- Keys present in the accumulator stay present through the loader
loop. -/
theorem loaderLoadProperties_preserves_some (classMap : Dict String AnnClass)
    (doc : List (String × RawObj)) :
    ∀ (acc m : Dict String PropInstance),
    loaderLoadProperties classMap acc doc = .ok m →
    ∀ k, (∃ p, dictGet acc k = some p) → ∃ p, dictGet m k = some p := by
  induction doc with
  | nil => intro acc m h k hp; cases h; exact hp
  | cons kv doc' ih =>
    intro acc m h k hp
    obtain ⟨k0, v0⟩ := kv
    unfold loaderLoadProperties at h
    split at h
    · cases h
    · rename_i c hc
      split at h
      · cases h
      · rename_i p hp0
        exact ih _ m h k (dictGet_isSome_dictInsert k0 p hp)

/-- On success the loader returns one instance for every document key, and
its result has unique keys. -/
theorem loaderLoadProperties_complete (classMap : Dict String AnnClass)
    (doc : List (String × RawObj)) :
    ∀ (acc m : Dict String PropInstance),
    loaderLoadProperties classMap acc doc = .ok m →
    ((∀ kv ∈ doc, ∃ p, dictGet m kv.1 = some p) ∧
     ((acc.map Prod.fst).Nodup → (m.map Prod.fst).Nodup)) := by
  induction doc with
  | nil =>
    intro acc m h
    cases h
    exact ⟨fun kv hm => absurd hm (List.not_mem_nil kv), fun h => h⟩
  | cons kv doc' ih =>
    intro acc m h
    obtain ⟨k, v⟩ := kv
    unfold loaderLoadProperties at h
    split at h
    · cases h
    · rename_i c hc
      split at h
      · cases h
      · rename_i p hp
        have hrest := ih (dictInsert k p acc) m h
        refine ⟨?_, fun hn => hrest.2 (dictInsert_keys_nodup k p acc hn)⟩
        intro kv hm
        cases hm with
        | head =>
          -- the key k may be overwritten later but stays present
          have hstart : ∃ q, dictGet (dictInsert k p acc) k = some q :=
            ⟨p, dictGet_dictInsert_self k p acc⟩
          exact loaderLoadProperties_preserves_some classMap doc'
            (dictInsert k p acc) m h k hstart
        | tail _ hm' => exact hrest.1 kv hm'

/-- If some registered key is absent from the loader's result, the storing
loop of `load_properties` raises the MissingKey-class `TypeError`, naming a
registered key that is indeed absent. -/
theorem storeProperties_missing (m : Dict String PropInstance)
    (l : List (String × AnnClass)) :
    ∀ ctx : Ctx, (∃ kv ∈ l, dictGet m kv.1 = none) →
    ∃ k', (storeProperties m ctx l).2
        = some (.propertiesInitializationError k') ∧
      dictGet m k' = none ∧ k' ∈ l.map Prod.fst := by
  induction l with
  | nil =>
    intro ctx hex
    obtain ⟨kv, hm, _⟩ := hex
    cases hm
  | cons kv0 rest ih =>
    intro ctx hex
    obtain ⟨k0, c0⟩ := kv0
    cases hk0 : dictGet m k0 with
    | none =>
      refine ⟨k0, ?_, hk0, by simp⟩
      unfold storeProperties
      rw [hk0]
    | some p =>
      obtain ⟨kv, hm, hnone⟩ := hex
      have hmem' : kv ∈ rest := by
        cases hm with
        | head =>
          rw [show (k0, c0).1 = k0 from rfl, hk0] at hnone
          cases hnone
        | tail _ h => exact h
      obtain ⟨k', h1, h2, h3⟩ := ih
        { ctx with singletonPropertiesInstanceContainer :=
            dictInsert k0 p ctx.singletonPropertiesInstanceContainer }
        ⟨kv, hmem', hnone⟩
      refine ⟨k', ?_, h2, by simp [h3]⟩
      unfold storeProperties
      rw [hk0]
      exact h1

/-- **C5.**  Properties loading: (a) a top-level document key with no
schema registered under that exact key fails with the UnknownKey-class
`ValueError`; (b) a value that does not validate against its schema's
field types fails with a validation error listing the offending field;
(c) a registered schema with no corresponding document key makes
`load_properties` fail with the MissingKey-class `TypeError` naming a
registered-but-absent key; (d) on success the loader yields exactly one
validated instance per document key (present, with unique keys); (e) the
document `{"db": {"host": "localhost", "port": 5432}}` with the schema
keyed `"db"` yields exactly the one instance with `host == "localhost"`
and `port == 5432`. -/
theorem loadProperties_error_modes :
    (∀ (classMap : Dict String AnnClass) (acc : Dict String PropInstance)
        (pre post : List (String × RawObj)) (k : String) (v : RawObj),
      (∀ kv ∈ pre, ∃ c p, dictGet classMap kv.1 = some c ∧
          modelValidate c kv.2 = .ok p) →
      dictGet classMap k = none →
      loaderLoadProperties classMap acc (pre ++ (k, v) :: post)
        = .error (.invalidPropertiesKey k)) ∧
    (∀ (classMap : Dict String AnnClass) (acc : Dict String PropInstance)
        (pre post : List (String × RawObj)) (k : String) (v : RawObj)
        (c : AnnClass) (fname : String) (fty : PFieldType) (lit : Lit),
      (∀ kv ∈ pre, ∃ c p, dictGet classMap kv.1 = some c ∧
          modelValidate c kv.2 = .ok p) →
      dictGet classMap k = some c →
      (fname, fty) ∈ c.fields → dictGet v fname = some lit →
      litMatches fty lit = false →
      ∃ bad, loaderLoadProperties classMap acc (pre ++ (k, v) :: post)
        = .error (.validationError c.propKey bad) ∧ fname ∈ bad) ∧
    (∀ (ctx : Ctx) (doc : List (String × RawObj))
        (classMap : Dict String AnnClass) (m : Dict String PropInstance)
        (key : String) (c : AnnClass),
      loadClassesAsMap (ctx.propertiesClsContainer.map (·.2)) = .ok classMap →
      loaderLoadProperties classMap [] doc = .ok m →
      (key, c) ∈ ctx.propertiesClsContainer →
      dictGet m key = none →
      ∃ k', (ctxLoadProperties ctx doc).2
          = some (.propertiesInitializationError k') ∧
        dictGet m k' = none ∧ k' ∈ ctx.propertiesClsContainer.map Prod.fst) ∧
    (∀ (classMap : Dict String AnnClass) (doc : List (String × RawObj))
        (m : Dict String PropInstance),
      loaderLoadProperties classMap [] doc = .ok m →
      (∀ kv ∈ doc, ∃ p, dictGet m kv.1 = some p) ∧ (m.map Prod.fst).Nodup) ∧
    ((ctxLoadProperties dbCtx dbDoc).2 = none ∧
      (ctxLoadProperties dbCtx
          dbDoc).1.singletonPropertiesInstanceContainer = [("db", dbInst)] ∧
      dictGet dbInst.fields "host" = some (.str "localhost") ∧
      dictGet dbInst.fields "port" = some (.int 5432)) := by
  refine ⟨?_, ?_, ?_, ?_, by decide, by decide, by decide, by decide⟩
  · intro classMap acc pre post k v hpre hk
    obtain ⟨acc', hskip⟩ :=
      loaderLoadProperties_valid_prefix classMap pre acc ((k, v) :: post) hpre
    rw [hskip]
    simp only [loaderLoadProperties, hk]
  · intro classMap acc pre post k v c fname fty lit hpre hc hmem hlook hbad
    obtain ⟨acc', hskip⟩ :=
      loaderLoadProperties_valid_prefix classMap pre acc ((k, v) :: post) hpre
    obtain ⟨bad, hmv, hin⟩ := modelValidate_mistyped c v fname fty lit hmem hlook hbad
    refine ⟨bad, ?_, hin⟩
    rw [hskip]
    simp only [loaderLoadProperties, hc, hmv]
  · intro ctx doc classMap m key c hclass hload hreg hnone
    obtain ⟨k', h1, h2, h3⟩ := storeProperties_missing m
      ctx.propertiesClsContainer ctx ⟨(key, c), hreg, hnone⟩
    refine ⟨k', ?_, h2, h3⟩
    rcases hsp : storeProperties m ctx ctx.propertiesClsContainer with ⟨ctx', err⟩
    rw [hsp] at h1
    have h1' : err = some (Err.propertiesInitializationError k') := h1
    subst h1'
    simp only [ctxLoadProperties, hclass, hload, hsp]
  · intro classMap doc m hload
    have h := loaderLoadProperties_complete classMap doc [] m hload
    exact ⟨h.1, h.2 (by simp)⟩

/-- Witness for C5: a document with only `"unknown"` fails with the
UnknownKey-class error; a mistyped `"db"` value fails with a validation
error naming `host`; a registered `"db"` schema with an empty document
fails with the MissingKey-class error naming `"db"`; the well-typed
document yields its instances. -/
theorem loadProperties_error_modes_witness :
    loaderLoadProperties [("db", dbCls)] [] [("unknown", [])]
      = .error (.invalidPropertiesKey "unknown") ∧
    (∃ bad, loaderLoadProperties [("db", dbCls)] []
        [("db", [("host", .int 1), ("port", .int 5432)])]
      = .error (.validationError "db" bad) ∧ "host" ∈ bad) ∧
    (∃ k', (ctxLoadProperties dbCtx []).2
        = some (.propertiesInitializationError k') ∧
      dictGet ([] : Dict String PropInstance) k' = none ∧
      k' ∈ dbCtx.propertiesClsContainer.map Prod.fst) ∧
    ((∀ kv ∈ dbDoc, ∃ p, dictGet [("db", dbInst)] kv.1 = some p) ∧
      (([("db", dbInst)] : Dict String PropInstance).map Prod.fst).Nodup) := by
  refine ⟨?_, ?_, ?_, ?_⟩
  · exact loadProperties_error_modes.1 [("db", dbCls)] [] [] [] "unknown" []
      (by intro kv h; cases h) rfl
  · exact loadProperties_error_modes.2.1 [("db", dbCls)] [] [] []
      "db" [("host", .int 1), ("port", .int 5432)] dbCls "host" .string (.int 1)
      (by intro kv h; cases h) rfl (by decide) rfl rfl
  · exact loadProperties_error_modes.2.2.1 dbCtx [] [("db", dbCls)] [] "db" dbCls
      rfl rfl (by decide) rfl
  · exact loadProperties_error_modes.2.2.2.1 [("db", dbCls)] dbDoc
      [("db", dbInst)] rfl

/-! ## Trace helpers for the temporal claims -/

theorem filter_all_true {α : Type} (p : α → Bool) (l : List α)
    (h : ∀ a ∈ l, p a = true) : l.filter p = l := by
  induction l with
  | nil => rfl
  | cons a rest ih =>
    have ha := h a (List.mem_cons_self _ _)
    simp only [List.filter_cons, ha, if_true]
    rw [ih fun a hm => h a (List.mem_cons_of_mem _ hm)]

theorem filter_all_false {α : Type} (p : α → Bool) (l : List α)
    (h : ∀ a ∈ l, p a = false) : l.filter p = [] := by
  induction l with
  | nil => rfl
  | cons a rest ih =>
    have ha := h a (List.mem_cons_self _ _)
    simp only [List.filter_cons, ha, if_false]
    exact ih fun a hm => h a (List.mem_cons_of_mem _ hm)

theorem nodup_append_singleton {α : Type} {xs : List α} {a : α}
    (h : xs.Nodup) (ha : a ∉ xs) : (xs ++ [a]).Nodup := by
  induction xs with
  | nil => simp
  | cons x rest ih =>
    simp only [List.nodup_cons] at h
    simp only [List.cons_append, List.nodup_cons]
    refine ⟨?_, ih h.2 fun hm => ha (List.mem_cons_of_mem _ hm)⟩
    intro hmem
    rcases List.mem_append.mp hmem with hm | hm
    · exact h.1 hm
    · rcases List.mem_singleton.mp hm with rfl
      exact ha (List.mem_cons_self _ _)

/-- Events of an Init lifecycle trace are init hooks and nothing else. -/
theorem lifeCycleTrace_init_events (insts : List Instance) :
    ∀ ev ∈ lifeCycleTrace .Init insts,
      isInitLifecycleEvent ev = true ∧ isInjectedEvent ev = false ∧
      isDestructionEvent ev = false := by
  induction insts with
  | nil => intro ev h; cases h
  | cons i rest ih =>
    intro ev h
    simp only [lifeCycleTrace, finishInitializationCycle, List.cons_append,
      List.nil_append, List.mem_cons] at h
    rcases h with rfl | rfl | rfl | h
    · exact ⟨rfl, rfl, rfl⟩
    · exact ⟨rfl, rfl, rfl⟩
    · exact ⟨rfl, rfl, rfl⟩
    · exact ih ev h

/-- Events of a Destruction lifecycle trace are destroy hooks and nothing
else. -/
theorem lifeCycleTrace_destr_events (insts : List Instance) :
    ∀ ev ∈ lifeCycleTrace .Destruction insts,
      isDestructionEvent ev = true ∧ isInjectedEvent ev = false ∧
      isInitLifecycleEvent ev = false := by
  induction insts with
  | nil => intro ev h; cases h
  | cons i rest ih =>
    intro ev h
    simp only [lifeCycleTrace, finishDestructionCycle, List.cons_append,
      List.nil_append, List.mem_cons] at h
    rcases h with rfl | rfl | rfl | h
    · exact ⟨rfl, rfl, rfl⟩
    · exact ⟨rfl, rfl, rfl⟩
    · exact ⟨rfl, rfl, rfl⟩
    · exact ih ev h

/-- Events of the injection trace are `injected` markers and nothing
else. -/
theorem injectedMap_events (es : List EntityCls) :
    ∀ ev ∈ es.map (fun e => Event.injected e.cls.id),
      isInjectedEvent ev = true ∧ isInitLifecycleEvent ev = false ∧
      isDestructionEvent ev = false := by
  intro ev h
  obtain ⟨e, _, rfl⟩ := List.mem_map.mp h
  exact ⟨rfl, rfl, rfl⟩

/-- An allocation id absent from the instance list never occurs in its
Init lifecycle trace. -/
theorem count_lifeCycleTrace_init_zero (insts : List Instance) (a : Nat)
    (h : a ∉ insts.map Instance.allocId) :
    (lifeCycleTrace .Init insts).count (.preInitHook a) = 0 ∧
    (lifeCycleTrace .Init insts).count (.initHook a) = 0 ∧
    (lifeCycleTrace .Init insts).count (.postInitHook a) = 0 := by
  induction insts with
  | nil => exact ⟨rfl, rfl, rfl⟩
  | cons j rest ih =>
    have hne : a ≠ j.allocId := fun he => h (by simp [he])
    have hrest : a ∉ rest.map Instance.allocId := fun hm => h (by simp [hm])
    have ihr := ih hrest
    simp only [lifeCycleTrace, finishInitializationCycle, List.cons_append,
      List.nil_append]
    simp [List.count_cons, ihr.1, ihr.2.1, ihr.2.2, hne]

/-- With pairwise-distinct allocation ids, each instance's three hooks
appear exactly once in the Init lifecycle trace. -/
theorem count_lifeCycleTrace_init_one (insts : List Instance) :
    ((insts.map Instance.allocId).Nodup) →
    ∀ i ∈ insts,
      (lifeCycleTrace .Init insts).count (.preInitHook i.allocId) = 1 ∧
      (lifeCycleTrace .Init insts).count (.initHook i.allocId) = 1 ∧
      (lifeCycleTrace .Init insts).count (.postInitHook i.allocId) = 1 := by
  induction insts with
  | nil => intro _ i h; cases h
  | cons j rest ih =>
    intro hnodup i hi
    simp only [List.map_cons, List.nodup_cons] at hnodup
    cases hi with
    | head =>
      have hz := count_lifeCycleTrace_init_zero rest j.allocId hnodup.1
      simp only [lifeCycleTrace, finishInitializationCycle, List.cons_append,
        List.nil_append]
      simp [List.count_cons, hz.1, hz.2.1, hz.2.2]
    | tail _ hi' =>
      have h1 := ih hnodup.2 i hi'
      have hne : i.allocId ≠ j.allocId := fun he =>
        hnodup.1 (he ▸ List.mem_map.mpr ⟨i, hi', rfl⟩)
      simp only [lifeCycleTrace, finishInitializationCycle, List.cons_append,
        List.nil_append]
      simp [List.count_cons, h1.1, h1.2.1, h1.2.2, hne]

/-- Destruction-trace analogue of `count_lifeCycleTrace_init_zero`. -/
theorem count_lifeCycleTrace_destr_zero (insts : List Instance) (a : Nat)
    (h : a ∉ insts.map Instance.allocId) :
    (lifeCycleTrace .Destruction insts).count (.preDestroy a) = 0 ∧
    (lifeCycleTrace .Destruction insts).count (.destroy a) = 0 ∧
    (lifeCycleTrace .Destruction insts).count (.postDestroy a) = 0 := by
  induction insts with
  | nil => exact ⟨rfl, rfl, rfl⟩
  | cons j rest ih =>
    have hne : a ≠ j.allocId := fun he => h (by simp [he])
    have hrest : a ∉ rest.map Instance.allocId := fun hm => h (by simp [hm])
    have ihr := ih hrest
    simp only [lifeCycleTrace, finishDestructionCycle, List.cons_append,
      List.nil_append]
    simp [List.count_cons, ihr.1, ihr.2.1, ihr.2.2, hne]

/-- Destruction-trace analogue of `count_lifeCycleTrace_init_one`. -/
theorem count_lifeCycleTrace_destr_one (insts : List Instance) :
    ((insts.map Instance.allocId).Nodup) →
    ∀ i ∈ insts,
      (lifeCycleTrace .Destruction insts).count (.preDestroy i.allocId) = 1 ∧
      (lifeCycleTrace .Destruction insts).count (.destroy i.allocId) = 1 ∧
      (lifeCycleTrace .Destruction insts).count (.postDestroy i.allocId) = 1 := by
  induction insts with
  | nil => intro _ i h; cases h
  | cons j rest ih =>
    intro hnodup i hi
    simp only [List.map_cons, List.nodup_cons] at hnodup
    cases hi with
    | head =>
      have hz := count_lifeCycleTrace_destr_zero rest j.allocId hnodup.1
      simp only [lifeCycleTrace, finishDestructionCycle, List.cons_append,
        List.nil_append]
      simp [List.count_cons, hz.1, hz.2.1, hz.2.2]
    | tail _ hi' =>
      have h1 := ih hnodup.2 i hi'
      have hne : i.allocId ≠ j.allocId := fun he =>
        hnodup.1 (he ▸ List.mem_map.mpr ⟨i, hi', rfl⟩)
      simp only [lifeCycleTrace, finishDestructionCycle, List.cons_append,
        List.nil_append]
      simp [List.count_cons, h1.1, h1.2.1, h1.2.2, hne]

/-- One successful step of the injection loop. -/
theorem injectEntities_step_ok (ctx ctx' : Ctx) (tr : List Event)
    (e : EntityCls) (rest : List EntityCls)
    (h : injectEntityDependencies ctx e = (ctx', none)) :
    injectEntities ctx tr (e :: rest)
      = injectEntities ctx' (tr ++ [.injected e.cls.id]) rest := by
  conv_lhs => rw [injectEntities]
  rw [h]

/-- One failing step of the injection loop. -/
theorem injectEntities_step_err (ctx ctx' : Ctx) (tr : List Event)
    (e : EntityCls) (rest : List EntityCls) (err : Err)
    (h : injectEntityDependencies ctx e = (ctx', some err)) :
    injectEntities ctx tr (e :: rest) = (ctx', tr, some err) := by
  conv_lhs => rw [injectEntities]
  rw [h]

/-- On success the injection loop appends one `injected` marker per entity,
in list order. -/
theorem injectEntities_trace (es : List EntityCls) :
    ∀ (ctx : Ctx) (tr : List Event),
    (injectEntities ctx tr es).2.2 = none →
    (injectEntities ctx tr es).2.1
      = tr ++ es.map (fun e => Event.injected e.cls.id) := by
  induction es with
  | nil => intro ctx tr _; simp [injectEntities]
  | cons e rest ih =>
    intro ctx tr h
    rcases hstep : injectEntityDependencies ctx e with ⟨ctx', err⟩
    match err with
    | some er =>
      rw [injectEntities_step_err ctx ctx' tr e rest er hstep] at h
      cases h
    | none =>
      rw [injectEntities_step_ok ctx ctx' tr e rest hstep] at h ⊢
      rw [ih ctx' _ h]
      simp

/-- Whatever the outcome, the injection loop adds only `injected` events
to its accumulator. -/
theorem injectEntities_trace_events (es : List EntityCls) :
    ∀ (ctx : Ctx) (tr : List Event),
    (∀ ev ∈ tr, isInjectedEvent ev = true) →
    ∀ ev ∈ (injectEntities ctx tr es).2.1, isInjectedEvent ev = true := by
  induction es with
  | nil => intro ctx tr h; exact h
  | cons e rest ih =>
    intro ctx tr h
    rcases hstep : injectEntityDependencies ctx e with ⟨ctx', err⟩
    match err with
    | some er =>
      rw [injectEntities_step_err ctx ctx' tr e rest er hstep]
      exact h
    | none =>
      rw [injectEntities_step_ok ctx ctx' tr e rest hstep]
      refine ih ctx' _ ?_
      intro ev hm
      rcases List.mem_append.mp hm with hm' | hm'
      · exact h ev hm'
      · rcases List.mem_singleton.mp hm' with rfl
        rfl

/-- The injection loop never touches the singleton component instance
container. -/
theorem injectEntities_preserves (es : List EntityCls) :
    ∀ (ctx : Ctx) (tr : List Event),
    (injectEntities ctx tr es).1.singletonComponentInstanceContainer
      = ctx.singletonComponentInstanceContainer := by
  induction es with
  | nil => intro ctx tr; rfl
  | cons e rest ih =>
    intro ctx tr
    rcases hstep : injectEntityDependencies ctx e with ⟨ctx', err⟩
    have hpres := (injectFields_preserves e.cls.id e.annotations ctx).2.2
    rw [show injectFields ctx e.cls.id e.annotations = (ctx', err) from hstep]
      at hpres
    match err with
    | some er =>
      rw [injectEntities_step_err ctx ctx' tr e rest er hstep]
      exact hpres
    | none =>
      rw [injectEntities_step_ok ctx ctx' tr e rest hstep]
      exact (ih ctx' _).trans hpres

/-- Phase 1, started from a container whose keys are disjoint from the
remaining registrations, produces only fresh, pairwise-distinct allocation
ids. -/
theorem initComponentsLoop_fresh (l : List (String × EntityCls)) :
    ∀ ctx : Ctx,
    (∀ kv ∈ l, dictGet ctx.singletonComponentInstanceContainer kv.1 = none) →
    (l.map Prod.fst).Nodup →
    (∀ kv ∈ ctx.singletonComponentInstanceContainer,
      kv.2.allocId < ctx.nextAllocId) →
    (ctx.singletonComponentInstanceContainer.map
      (fun kv => kv.2.allocId)).Nodup →
    (∀ kv ∈ (initComponentsLoop ctx l).singletonComponentInstanceContainer,
        kv.2.allocId < (initComponentsLoop ctx l).nextAllocId) ∧
    ((initComponentsLoop ctx l).singletonComponentInstanceContainer.map
        (fun kv => kv.2.allocId)).Nodup := by
  induction l with
  | nil => intro ctx _ _ hb hn; exact ⟨hb, hn⟩
  | cons kv0 rest ih =>
    intro ctx h1 h2 hb hn
    obtain ⟨k, e⟩ := kv0
    simp only [List.map_cons, List.nodup_cons] at h2
    unfold initComponentsLoop
    split
    · exact ih ctx (fun kv hm => h1 kv (List.mem_cons_of_mem _ hm)) h2.2 hb hn
    · have hfree : dictGet ctx.singletonComponentInstanceContainer k = none :=
        h1 (k, e) (List.mem_cons_self _ _)
      have happ := dictInsert_eq_append
        (⟨e.cls.id, e.cls.name, ctx.nextAllocId⟩ : Instance) hfree
      refine ih _ ?_ h2.2 ?_ ?_
      · intro kv hm
        have hne : k ≠ kv.1 := fun he =>
          h2.1 (he ▸ List.mem_map.mpr ⟨kv, hm, rfl⟩)
        have hpres := dictGet_dictInsert_ne
          (⟨e.cls.id, e.cls.name, ctx.nextAllocId⟩ : Instance)
          ctx.singletonComponentInstanceContainer hne
        rw [show dictGet (dictInsert k
            (⟨e.cls.id, e.cls.name, ctx.nextAllocId⟩ : Instance)
            ctx.singletonComponentInstanceContainer) kv.1
          = dictGet ctx.singletonComponentInstanceContainer kv.1 from hpres]
        exact h1 kv (List.mem_cons_of_mem _ hm)
      · intro kv hm
        rw [happ] at hm
        rcases List.mem_append.mp hm with hm' | hm'
        · exact Nat.lt_succ_of_lt (hb kv hm')
        · rcases List.mem_singleton.mp hm' with rfl
          exact Nat.lt_succ_self _
      · rw [happ, List.map_append]
        refine nodup_append_singleton hn ?_
        intro hm
        obtain ⟨kv, hkv, he⟩ := List.mem_map.mp hm
        have := hb kv hkv
        rw [he] at this
        exact Nat.lt_irrefl _ this

/-! ## Claim C6: lifecycle starts only after all injection completes -/

/-- **C6.**  On a successful `__init_app`: the trace's `injected` markers
are exactly one per registered component and controller class, in
registration order; its initialization events are exactly the ordered
initialization hook triple per singleton instance in
container order; the whole trace is the injection part followed by the
initialization part (so every initialization hook runs only after
dependency injection has completed for *all* components and controllers);
and each instance's three hooks are invoked exactly once. -/
theorem initApp_lifecycle_ordering (ctx₀ ctx' : Ctx)
    (doc : List (String × RawObj)) (tr : List Event)
    (hrun : initAppPartial ctx₀ doc = (ctx', tr, none))
    (hempty : ctx₀.singletonComponentInstanceContainer = [])
    (hkeys : (ctx₀.componentClsContainer.map Prod.fst).Nodup) :
    tr.filter isInjectedEvent
      = (appEntities ctx₀).map (fun e => Event.injected e.cls.id) ∧
    tr.filter isInitLifecycleEvent
      = lifeCycleTrace .Init (getSingletonComponentInstances ctx') ∧
    tr = tr.filter isInjectedEvent ++ tr.filter isInitLifecycleEvent ∧
    (∀ i ∈ getSingletonComponentInstances ctx',
      tr.count (.preInitHook i.allocId) = 1 ∧
      tr.count (.initHook i.allocId) = 1 ∧
      tr.count (.postInitHook i.allocId) = 1) := by
  rcases hlp : ctxLoadProperties ctx₀ doc with ⟨ctx₁, err₁⟩
  cases err₁ with
  | some e =>
    have heq : initAppPartial ctx₀ doc = (ctx₁, [], some e) := by
      simp only [initAppPartial, hlp]
    rw [heq] at hrun
    exact absurd (congrArg (fun p => p.2.2) hrun) (by simp)
  | none =>
    rcases hbp : initIocBeansPhase (initIocComponentsPhase ctx₁) with ⟨ctx₃, err₂⟩
    cases err₂ with
    | some e =>
      have heq : initAppPartial ctx₀ doc = (ctx₃, [], some e) := by
        simp only [initAppPartial, hlp, hbp]
      rw [heq] at hrun
      exact absurd (congrArg (fun p => p.2.2) hrun) (by simp)
    | none =>
      rcases hinj : injectDependenciesForAppEntities ctx₃ with ⟨ctx₄, injTr, err₃⟩
      cases err₃ with
      | some e =>
        have heq : initAppPartial ctx₀ doc = (ctx₄, injTr, some e) := by
          simp only [initAppPartial, hlp, hbp, hinj]
        rw [heq] at hrun
        exact absurd (congrArg (fun p => p.2.2) hrun) (by simp)
      | none =>
        have heq : initAppPartial ctx₀ doc
            = (ctx₄, injTr ++ handleSingletonComponentsLifeCycle ctx₄ .Init,
               none) := by
          simp only [initAppPartial, hlp, hbp, hinj]
        rw [heq] at hrun
        injection hrun with hctx hrest
        injection hrest with htr _
        subst hctx
        subst htr
        -- field equalities across the phases
        have hload := ctxLoadProperties_preserves ctx₀ doc
        rw [hlp] at hload
        have hphase1 := initComponentsLoop_preserves
          ctx₁.componentClsContainer ctx₁
        have hbeans := initIocBeansLoop_preserves
          (initIocComponentsPhase ctx₁).beanCollectionClsContainer
          (initIocComponentsPhase ctx₁)
        rw [show initIocBeansLoop (initIocComponentsPhase ctx₁)
            (initIocComponentsPhase ctx₁).beanCollectionClsContainer
          = (ctx₃, none) from hbp] at hbeans
        have hcomp3 : ctx₃.componentClsContainer = ctx₀.componentClsContainer :=
          hbeans.1.trans (hphase1.1.trans hload.1)
        have hctrl3 : ctx₃.controllerClsContainer = ctx₀.controllerClsContainer :=
          hbeans.2.1.trans (hphase1.2.1.trans hload.2.1)
        have hents : appEntities ctx₃ = appEntities ctx₀ := by
          unfold appEntities
          rw [hcomp3, hctrl3]
        -- the injection trace
        have htrace := injectEntities_trace (appEntities ctx₃) ctx₃ []
        rw [show injectEntities ctx₃ [] (appEntities ctx₃)
          = (ctx₄, injTr, none) from hinj] at htrace
        have hinjTr : injTr = (appEntities ctx₀).map
            (fun e => Event.injected e.cls.id) := by
          have := htrace rfl
          simpa [hents] using this
        -- the initialization trace
        have hinitTr : handleSingletonComponentsLifeCycle ctx₄ .Init
            = lifeCycleTrace .Init (getSingletonComponentInstances ctx₄) := rfl
        -- event-kind facts
        have hinjEv : ∀ ev ∈ injTr, isInjectedEvent ev = true := by
          rw [hinjTr]
          intro ev h
          exact (injectedMap_events (appEntities ctx₀) ev h).1
        have hinjNotInit : ∀ ev ∈ injTr, isInitLifecycleEvent ev = false := by
          rw [hinjTr]
          intro ev h
          exact (injectedMap_events (appEntities ctx₀) ev h).2.1
        have hinitEv : ∀ ev ∈ lifeCycleTrace .Init
            (getSingletonComponentInstances ctx₄),
            isInitLifecycleEvent ev = true :=
          fun ev h => (lifeCycleTrace_init_events _ ev h).1
        have hinitNotInj : ∀ ev ∈ lifeCycleTrace .Init
            (getSingletonComponentInstances ctx₄),
            isInjectedEvent ev = false :=
          fun ev h => (lifeCycleTrace_init_events _ ev h).2.1
        have hfiltInj : (injTr ++ handleSingletonComponentsLifeCycle ctx₄
            .Init).filter isInjectedEvent = injTr := by
          rw [List.filter_append, hinitTr,
            filter_all_true isInjectedEvent injTr hinjEv,
            filter_all_false isInjectedEvent _ hinitNotInj, List.append_nil]
        have hfiltInit : (injTr ++ handleSingletonComponentsLifeCycle ctx₄
            .Init).filter isInitLifecycleEvent
            = lifeCycleTrace .Init (getSingletonComponentInstances ctx₄) := by
          rw [List.filter_append, hinitTr,
            filter_all_false isInitLifecycleEvent injTr hinjNotInit,
            filter_all_true isInitLifecycleEvent _ hinitEv, List.nil_append]
        -- instance container freshness
        have hinst4 : ctx₄.singletonComponentInstanceContainer
            = (initIocComponentsPhase ctx₁).singletonComponentInstanceContainer := by
          have hpres := injectEntities_preserves (appEntities ctx₃) ctx₃ []
          rw [show injectEntities ctx₃ [] (appEntities ctx₃)
            = (ctx₄, injTr, none) from hinj] at hpres
          exact hpres.trans hbeans.2.2
        have hsing1 : ctx₁.singletonComponentInstanceContainer = [] :=
          hload.2.2.2.trans hempty
        have hfresh := initComponentsLoop_fresh ctx₁.componentClsContainer ctx₁
          (by rw [hsing1]; intro kv _; rfl)
          (by rw [hload.1]; exact hkeys)
          (by rw [hsing1]; intro kv h; cases h)
          (by rw [hsing1]; simp)
        have hnodup4 : (ctx₄.singletonComponentInstanceContainer.map
            (fun kv => kv.2.allocId)).Nodup := by
          rw [hinst4]
          exact hfresh.2
        have hnodupIds : ((getSingletonComponentInstances ctx₄).map
            Instance.allocId).Nodup := by
          have : (getSingletonComponentInstances ctx₄).map Instance.allocId
              = ctx₄.singletonComponentInstanceContainer.map
                  (fun kv => kv.2.allocId) := by
            simp [getSingletonComponentInstances, List.map_map, Function.comp]
          rw [this]
          exact hnodup4
        refine ⟨hfiltInj.trans hinjTr, hfiltInit, ?_, ?_⟩
        · rw [hfiltInj, hfiltInit, hinitTr]
        · intro i hi
          have hone := count_lifeCycleTrace_init_one
            (getSingletonComponentInstances ctx₄) hnodupIds i hi
          have hzero : injTr.count (Event.preInitHook i.allocId) = 0 ∧
              injTr.count (Event.initHook i.allocId) = 0 ∧
              injTr.count (Event.postInitHook i.allocId) = 0 := by
            refine ⟨?_, ?_, ?_⟩ <;>
              · rw [List.count_eq_zero]
                intro hm
                have := hinjEv _ hm
                simp [isInjectedEvent] at this
          rw [hinitTr]
          rw [List.count_append, List.count_append, List.count_append]
          rw [hzero.1, hzero.2.1, hzero.2.2, hone.1, hone.2.1, hone.2.2]
          exact ⟨rfl, rfl, rfl⟩

/-- Witness for C6: running `__init_app` on a context with singleton
components `A`, `B` and a controller produces the injection markers first,
then exactly one init-hook triple per constructed singleton. -/
theorem initApp_lifecycle_ordering_witness :
    ((initAppPartial lifecycleCtx []).2.1).filter isInjectedEvent
      = (appEntities lifecycleCtx).map (fun e => Event.injected e.cls.id) ∧
    ((initAppPartial lifecycleCtx []).2.1).filter isInitLifecycleEvent
      = lifeCycleTrace .Init
          (getSingletonComponentInstances (initAppPartial lifecycleCtx []).1) ∧
    (initAppPartial lifecycleCtx []).2.1
      = ((initAppPartial lifecycleCtx []).2.1).filter isInjectedEvent ++
        ((initAppPartial lifecycleCtx []).2.1).filter isInitLifecycleEvent ∧
    (∀ i ∈ getSingletonComponentInstances (initAppPartial lifecycleCtx []).1,
      ((initAppPartial lifecycleCtx []).2.1).count (.preInitHook i.allocId) = 1 ∧
      ((initAppPartial lifecycleCtx []).2.1).count (.initHook i.allocId) = 1 ∧
      ((initAppPartial lifecycleCtx []).2.1).count (.postInitHook i.allocId)
          = 1) :=
  initApp_lifecycle_ordering lifecycleCtx (initAppPartial lifecycleCtx []).1 []
    (initAppPartial lifecycleCtx []).2.1 rfl rfl (by decide)

/-! ## Claim C10: `run` always fires the destruction hooks, forward -/

/-- The `__init_app` part of the trace contains no destruction events, on
any outcome. -/
theorem initAppPartial_no_destruction (ctx₀ : Ctx)
    (doc : List (String × RawObj)) :
    ∀ ev ∈ (initAppPartial ctx₀ doc).2.1, isDestructionEvent ev = false := by
  rcases hlp : ctxLoadProperties ctx₀ doc with ⟨ctx₁, err₁⟩
  cases err₁ with
  | some e =>
    simp only [initAppPartial, hlp]
    intro ev h
    cases h
  | none =>
    rcases hbp : initIocBeansPhase (initIocComponentsPhase ctx₁) with ⟨ctx₃, err₂⟩
    cases err₂ with
    | some e =>
      simp only [initAppPartial, hlp, hbp]
      intro ev h
      cases h
    | none =>
      rcases hinj : injectDependenciesForAppEntities ctx₃ with ⟨ctx₄, injTr, err₃⟩
      have hinjEv : ∀ ev ∈ injTr, isInjectedEvent ev = true := by
        have h := injectEntities_trace_events (appEntities ctx₃) ctx₃ []
          (by intro ev h; cases h)
        rw [show injectEntities ctx₃ [] (appEntities ctx₃)
          = (ctx₄, injTr, err₃) from hinj] at h
        exact h
      cases err₃ with
      | some e =>
        simp only [initAppPartial, hlp, hbp, hinj]
        intro ev h
        have := hinjEv ev h
        cases ev <;> simp_all [isInjectedEvent, isDestructionEvent]
      | none =>
        simp only [initAppPartial, hlp, hbp, hinj]
        intro ev h
        rcases List.mem_append.mp h with hm | hm
        · have := hinjEv ev hm
          cases ev <;> simp_all [isInjectedEvent, isDestructionEvent]
        · exact (lifeCycleTrace_init_events _ ev hm).2.2

/-- At whatever point `__init_app` stops, the singleton instances present
have pairwise-distinct allocation ids. -/
theorem initAppPartial_instances_nodup (ctx₀ : Ctx)
    (doc : List (String × RawObj))
    (hempty : ctx₀.singletonComponentInstanceContainer = [])
    (hkeys : (ctx₀.componentClsContainer.map Prod.fst).Nodup) :
    (((initAppPartial ctx₀ doc).1).singletonComponentInstanceContainer.map
      (fun kv => kv.2.allocId)).Nodup := by
  rcases hlp : ctxLoadProperties ctx₀ doc with ⟨ctx₁, err₁⟩
  have hload := ctxLoadProperties_preserves ctx₀ doc
  rw [hlp] at hload
  have hsing1 : ctx₁.singletonComponentInstanceContainer = [] :=
    hload.2.2.2.trans hempty
  have hcomp1 : ctx₁.componentClsContainer = ctx₀.componentClsContainer := hload.1
  cases err₁ with
  | some e =>
    simp only [initAppPartial, hlp]
    rw [hsing1]
    simp
  | none =>
    have hfresh := initComponentsLoop_fresh ctx₁.componentClsContainer ctx₁
      (by rw [hsing1]; intro kv _; rfl)
      (by rw [hcomp1]; exact hkeys)
      (by rw [hsing1]; intro kv h; cases h)
      (by rw [hsing1]; simp)
    rcases hbp : initIocBeansPhase (initIocComponentsPhase ctx₁) with ⟨ctx₃, err₂⟩
    have hbeans := initIocBeansLoop_preserves
      (initIocComponentsPhase ctx₁).beanCollectionClsContainer
      (initIocComponentsPhase ctx₁)
    rw [show initIocBeansLoop (initIocComponentsPhase ctx₁)
        (initIocComponentsPhase ctx₁).beanCollectionClsContainer
      = (ctx₃, err₂) from hbp] at hbeans
    have hsing3 : ctx₃.singletonComponentInstanceContainer
        = (initIocComponentsPhase ctx₁).singletonComponentInstanceContainer :=
      hbeans.2.2
    cases err₂ with
    | some e =>
      simp only [initAppPartial, hlp, hbp]
      rw [hsing3]
      exact hfresh.2
    | none =>
      rcases hinj : injectDependenciesForAppEntities ctx₃ with ⟨ctx₄, injTr, err₃⟩
      have hpres := injectEntities_preserves (appEntities ctx₃) ctx₃ []
      rw [show injectEntities ctx₃ [] (appEntities ctx₃)
        = (ctx₄, injTr, err₃) from hinj] at hpres
      have hsing4 : ctx₄.singletonComponentInstanceContainer
          = (initIocComponentsPhase ctx₁).singletonComponentInstanceContainer :=
        hpres.trans hsing3
      cases err₃ with
      | some e =>
        simp only [initAppPartial, hlp, hbp, hinj]
        rw [hsing4]
        exact hfresh.2
      | none =>
        simp only [initAppPartial, hlp, hbp, hinj]
        rw [hsing4]
        exact hfresh.2

/-- **C10.**  `Application.run` executes the destruction lifecycle in its
`finally` block on every path: the destruction events of the trace are
exactly the ordered triple pre-destroy/destroy/post-destroy for each
singleton instance present at the failure (or completion) point, iterated
in forward container (insertion = construction) order — not in reverse —
they come after everything else in the trace, and each constructed
instance is destroyed exactly once.  This holds whether or not a startup
phase raised. -/
theorem runApp_destruction_always (ctx₀ : Ctx) (doc : List (String × RawObj)) :
    ((runApp ctx₀ doc).2.1).filter isDestructionEvent
      = lifeCycleTrace .Destruction
          (getSingletonComponentInstances (runApp ctx₀ doc).1) ∧
    (runApp ctx₀ doc).2.1
      = ((runApp ctx₀ doc).2.1).filter (fun ev => !isDestructionEvent ev) ++
        ((runApp ctx₀ doc).2.1).filter isDestructionEvent ∧
    (ctx₀.singletonComponentInstanceContainer = [] →
     (ctx₀.componentClsContainer.map Prod.fst).Nodup →
     ∀ i ∈ getSingletonComponentInstances (runApp ctx₀ doc).1,
       ((runApp ctx₀ doc).2.1).count (.preDestroy i.allocId) = 1 ∧
       ((runApp ctx₀ doc).2.1).count (.destroy i.allocId) = 1 ∧
       ((runApp ctx₀ doc).2.1).count (.postDestroy i.allocId) = 1) := by
  have hnod := initAppPartial_no_destruction ctx₀ doc
  rcases hip : initAppPartial ctx₀ doc with ⟨ctxF, trI, err⟩
  rw [hip] at hnod
  have hnodI : ∀ ev ∈ trI, isDestructionEvent ev = false := hnod
  have hrun : runApp ctx₀ doc
      = (ctxF, trI ++ lifeCycleTrace .Destruction
          (getSingletonComponentInstances ctxF), err) := by
    simp only [runApp, hip]
    rfl
  rw [hrun]
  have hdestrEv : ∀ ev ∈ lifeCycleTrace .Destruction
      (getSingletonComponentInstances ctxF), isDestructionEvent ev = true :=
    fun ev h => (lifeCycleTrace_destr_events _ ev h).1
  have hfiltD : (trI ++ lifeCycleTrace .Destruction
      (getSingletonComponentInstances ctxF)).filter isDestructionEvent
      = lifeCycleTrace .Destruction (getSingletonComponentInstances ctxF) := by
    rw [List.filter_append, filter_all_false _ trI hnodI,
      filter_all_true _ _ hdestrEv, List.nil_append]
  refine ⟨hfiltD, ?_, ?_⟩
  · have hfiltN : (trI ++ lifeCycleTrace .Destruction
        (getSingletonComponentInstances ctxF)).filter
          (fun ev => !isDestructionEvent ev) = trI := by
      rw [List.filter_append,
        filter_all_true _ trI (fun ev h => by rw [hnodI ev h]; rfl),
        filter_all_false _ _ (fun ev h => by rw [hdestrEv ev h]; rfl),
        List.append_nil]
    rw [hfiltN, hfiltD]
  · intro hempty hkeys i hi
    have hnodup := initAppPartial_instances_nodup ctx₀ doc hempty hkeys
    rw [hip] at hnodup
    have hnodupIds : ((getSingletonComponentInstances ctxF).map
        Instance.allocId).Nodup := by
      have : (getSingletonComponentInstances ctxF).map Instance.allocId
          = ctxF.singletonComponentInstanceContainer.map
              (fun kv => kv.2.allocId) := by
        simp [getSingletonComponentInstances, List.map_map, Function.comp]
      rw [this]
      exact hnodup
    have hone := count_lifeCycleTrace_destr_one
      (getSingletonComponentInstances ctxF) hnodupIds i hi
    have hzero : trI.count (Event.preDestroy i.allocId) = 0 ∧
        trI.count (Event.destroy i.allocId) = 0 ∧
        trI.count (Event.postDestroy i.allocId) = 0 := by
      refine ⟨?_, ?_, ?_⟩ <;>
        · rw [List.count_eq_zero]
          intro hm
          have := hnodI _ hm
          simp [isDestructionEvent] at this
    rw [List.count_append, List.count_append, List.count_append]
    rw [hzero.1, hzero.2.1, hzero.2.2, hone.1, hone.2.1, hone.2.2]
    exact ⟨rfl, rfl, rfl⟩

/-- Witness for C10 at a context whose injection phase raises after both
singletons (`A` then `Bad`) are constructed: the error propagates, yet
both instances receive their destruction triple, in forward construction
order. -/
theorem runApp_destruction_always_witness :
    ((runApp failingCtx []).2.1).filter isDestructionEvent
      = lifeCycleTrace .Destruction
          (getSingletonComponentInstances (runApp failingCtx []).1) ∧
    (∀ i ∈ getSingletonComponentInstances (runApp failingCtx []).1,
      ((runApp failingCtx []).2.1).count (.preDestroy i.allocId) = 1 ∧
      ((runApp failingCtx []).2.1).count (.destroy i.allocId) = 1 ∧
      ((runApp failingCtx []).2.1).count (.postDestroy i.allocId) = 1) ∧
    (runApp failingCtx []).2.2
      = some (.dependencyResolutionError "dep" "Missing") ∧
    getSingletonComponentInstances (runApp failingCtx []).1
      = [⟨40, "A", 0⟩, ⟨43, "Bad", 1⟩] := by
  have h := runApp_destruction_always failingCtx []
  exact ⟨h.1, h.2.2 rfl (by decide), by decide, by decide⟩

end PySpring
